import Mathlib

/-!
Shallow embedding of the discordbot summarization pipeline:
comment normalization, thread linearization, document composition,
the Gemini multi-model fallback client, and the queued-job workers
with their database persistence operations.
-/

namespace DiscordBot

/-! ### JSON-like metadata values (jsonb columns, python dict payloads) -/

inductive MetaVal where
  | nullVal
  | strVal (s : String)
  | intVal (n : Int)
  | boolVal (b : Bool)
deriving DecidableEq

/-- A jsonb object / python dict: association list, later bindings win. -/
abbrev JsonObj := List (String × MetaVal)

/-- Key lookup in a jsonb object: the last binding for a key wins, so
that appending bindings shadows earlier ones. -/
def jsonLookup (obj : JsonObj) (k : String) : Option MetaVal :=
  (obj.reverse.find? (fun p => p.1 == k)).map Prod.snd

/-- Postgres `jsonb || jsonb` / python `dict.update`: key union, right side
wins on overlapping keys (append under the last-binding-wins reading). -/
def jsonbConcat (a b : JsonObj) : JsonObj :=
  a ++ b

/-- Python `a or b` on optional strings: empty string is falsy. -/
def pyOr (a b : Option String) : Option String :=
  match a with
  | some s => if s = "" then b else some s
  | none => b

/-- Python truthiness of an optional string (`if summary:`). -/
def pyTruthy (s : Option String) : Bool :=
  match s with
  | some v => v ≠ ""
  | none => false

/-- Python `str.strip()`: drop whitespace from both ends. -/
def pyStrip (s : String) : String :=
  ⟨((s.data.dropWhile Char.isWhitespace).reverse.dropWhile Char.isWhitespace).reverse⟩

/-- Lower-casing (`str.lower()`). -/
def lowerStr (s : String) : String :=
  ⟨s.data.map Char.toLower⟩

def digitsVal (ds : List Char) : Option Nat :=
  if ds = [] then none
  else
    ds.foldl
      (fun acc c => acc.bind (fun a => if c.isDigit then some (a * 10 + (c.toNat - 48)) else none))
      (some 0)

/-- Python `int(str)` on a decimal literal, `none` on conversion failure
(`ValueError`). -/
def pyInt (s : String) : Option Int :=
  match (pyStrip s).data with
  | '-' :: ds => (digitsVal ds).map (fun n => -(n : Int))
  | '+' :: ds => (digitsVal ds).map (fun n => (n : Int))
  | ds => (digitsVal ds).map (fun n => (n : Int))

/-! ### Gemini summarization client (gemini_summary.py / services/gemini) -/

/-- Per-model cooldown expiry timestamps (`_MODEL_COOLDOWNS`). -/
abbrev Cooldowns := List (String × Nat)

def cdLookup (cds : Cooldowns) (m : String) : Option Nat :=
  (cds.find? (fun p => p.1 == m)).map Prod.snd

def cdSet (cds : Cooldowns) (m : String) (t : Nat) : Cooldowns :=
  (m, t) :: cds.filter (fun p => p.1 ≠ m)

def cdErase (cds : Cooldowns) (m : String) : Cooldowns :=
  cds.filter (fun p => p.1 ≠ m)

/-- `if cooldown_until and cooldown_until > now:` — truthy (nonzero) expiry
strictly in the future. -/
def cooldownActive (cds : Cooldowns) (m : String) (now : Nat) : Bool :=
  match cdLookup cds m with
  | some t => 0 < t ∧ now < t
  | none => false

/-- Outcome of one `_invoke_gemini` network call, abstracted as an oracle:
success with the returned text, a quota/rate-limit-class failure
(`_ModelQuotaError`: HTTP 429/503 or quota vocabulary in the message), or
any other `SummaryError` (timeout, bad JSON, non-2xx non-quota status). -/
inductive ModelOutcome where
  | success (summary : String)
  | quotaError (msg : String)
  | otherError (msg : String)
deriving DecidableEq

/-- Result of `summarise_with_gemini`: the returned pair or the raised
`SummaryError` (message, `last_model` tag), together with the final
cooldown state. -/
inductive SummaryResult where
  | ok (summary model : String) (cooldowns : Cooldowns)
  | err (msg : String) (lastModel : Option String) (cooldowns : Cooldowns)
deriving DecidableEq

def genericSkipMessage : String :=
  "All Gemini models were skipped due to cooldown or configuration."

/-- The model-priority fallback loop of `summarise_with_gemini` (and of
`summarise_with_gemini_with_title`, whose loop is identical): iterate
models in order, skip cooled-down models, on quota error set the model
cooldown to `now + max(cooldown_seconds, 30)` and continue, on other
error record it and continue, on success clear the cooldown and return.
`errors` and `lastAttempted` are the loop accumulators. -/
def summariseLoop (outcome : String → ModelOutcome) (now cooldownSeconds : Nat) :
    List String → Cooldowns → List String → Option String → SummaryResult
  | [], cds, errors, lastAttempted =>
    match errors.getLast? with
    | some e => .err e lastAttempted cds
    | none => .err genericSkipMessage lastAttempted cds
  | model :: rest, cds, errors, lastAttempted =>
    if cooldownActive cds model now then
      summariseLoop outcome now cooldownSeconds rest cds errors lastAttempted
    else
      match outcome model with
      | .success s => .ok s model (cdErase cds model)
      | .quotaError msg =>
        summariseLoop outcome now cooldownSeconds rest
          (cdSet cds model (now + max cooldownSeconds 30)) (errors ++ [msg]) (some model)
      | .otherError msg =>
        summariseLoop outcome now cooldownSeconds rest cds (errors ++ [msg]) (some model)

def imageOnlyPlaceholder : String :=
  "(본문 텍스트 없음 — 이미지를 기반으로 요약해 주세요.)"

def noContentMessage : String := "No text or images available for summarisation."

def missingKeyMessage : String := "Missing GEMINI_API_KEY."

def noModelsMessage : String := "No Gemini models configured."

/-- Text preparation in `summarise_with_gemini` (lines 72-80): strip the
input; empty input becomes the image placeholder when images exist, else a
`SummaryError` (`none` here); text longer than `max_text_length` is cut to
the first `max_text_length` characters plus the fixed marker. -/
def prepareTextToUse (text : String) (hasImages : Bool) (maxLen : Nat) : Option String :=
  let t0 := pyStrip text
  let t1 : Option String :=
    if t0 = "" then (if hasImages then some imageOnlyPlaceholder else none) else some t0
  t1.map (fun t => if t.length > maxLen then String.take t maxLen ++ "\n..." else t)

structure GeminiConfig where
  apiKey : String
  modelPriorities : List String
  timeoutSeconds : Nat
  maxTextLength : Nat
  debug : Bool
  cooldownSeconds : Nat
  imageLimit : Nat
deriving DecidableEq

/-- The cleaned model list: `[m.strip() for m in config.model_priorities if m.strip()]`. -/
def availableModels (cfg : GeminiConfig) : List String :=
  (cfg.modelPriorities.map pyStrip).filter (fun m => m ≠ "")

/-- `summarise_with_gemini` entry point: credential gate, content gate,
model-list gate, then the fallback loop. The network call is abstracted
by the `outcome` oracle and the clock by `now`. -/
def summariseWithGemini (outcome : String → ModelOutcome) (now : Nat)
    (text : String) (hasImages : Bool) (cfg : GeminiConfig) (cds : Cooldowns) :
    SummaryResult :=
  if cfg.apiKey = "" then .err missingKeyMessage none cds
  else
    match prepareTextToUse text hasImages cfg.maxTextLength with
    | none => .err noContentMessage none cds
    | some _textToUse =>
      if availableModels cfg = [] then .err noModelsMessage none cds
      else summariseLoop outcome now cfg.cooldownSeconds (availableModels cfg) cds [] none

/-! ### Normalized comment payloads and the thread linearizers -/

/-- A comment dict as the workers and db layer receive it. Optional string
fields model python `dict.get` results; `idAlt`, `userAlt`, `bodyAlt` and
`parentIdAlt` are the fallback keys read by `replace_item_comments`
(`id`, `user`, `body`, `parent_id`). `createdAt` stands for the already
parsed timestamp. -/
structure RawComment where
  externalId : Option String
  idAlt : Option String
  author : Option String
  userAlt : Option String
  content : Option String
  bodyAlt : Option String
  createdAt : Option Int
  isDeleted : Bool
  parentExternalId : Option String
  parentIdAlt : Option String
  score : Option Int
  metadata : JsonObj
deriving DecidableEq

/-- `comment.get("author") or "unknown"`. -/
def pyAuthor (c : RawComment) : String :=
  match c.author with
  | some a => if a = "" then "unknown" else a
  | none => "unknown"

/-- `(comment.get("content") or "").strip()`. -/
def strippedContent (c : RawComment) : String :=
  pyStrip (c.content.getD "")

/-- `int(metadata.get("depth"))` with `None` → 0 and conversion failures
caught to 0 (python `int(True)` is 1). -/
def metaDepth (md : JsonObj) : Int :=
  match jsonLookup md "depth" with
  | some (.intVal n) => n
  | some (.strVal s) => (pyInt s).getD 0
  | some (.boolVal b) => if b then 1 else 0
  | _ => 0

/-- Python dict lookup where the dict was built by comprehension:
the last binding for a key wins. -/
def dictLookup (l : List (String × String)) (k : String) : Option String :=
  (l.reverse.find? (fun p => p.1 == k)).map Prod.snd

def dictLookupNat (l : List (String × Nat)) (k : String) : Option Nat :=
  (l.reverse.find? (fun p => p.1 == k)).map Prod.snd

/-- `"  " * max(depth, 0)`. -/
def indentFor (depth : Int) : String :=
  String.join (List.replicate (max depth 0).toNat "  ")

/-- The external-id → author map of `_format_comments_for_summary`
(dcinside_worker.py): every comment with a non-None external id. -/
def idToAuthorDc (cs : List RawComment) : List (String × String) :=
  cs.filterMap (fun c => c.externalId.map (fun i => (i, pyAuthor c)))

/-- The external-id → author map of `_comments_for_summary`
(store_reddit_posts.py): only truthy external ids. -/
def idToAuthorReddit (cs : List RawComment) : List (String × String) :=
  cs.filterMap (fun c =>
    match c.externalId with
    | some i => if i = "" then none else some (i, pyAuthor c)
    | none => none)

/-- One rendered line of the dcinside linearizer body (after the
non-empty-content gate), with `content` the stripped content. -/
def dcLine (lookup : List (String × String)) (c : RawComment) (content : String) :
    String :=
  let depth := metaDepth c.metadata
  let parentAuthor := c.parentExternalId.bind (fun p => dictLookup lookup p)
  let label :=
    if depth ≤ 0 then "[원댓글]"
    else
      match parentAuthor with
      | some pa => "[대댓글 → " ++ pa ++ "]"
      | none => "[대댓글]"
  indentFor depth ++ label ++ " " ++ pyAuthor c ++ ": " ++ content

/-- `_format_comments_for_summary` (dcinside_worker.py lines 74-109). -/
def formatCommentsForSummary (comments : List RawComment) : List String :=
  let lookup := idToAuthorDc comments
  comments.foldl
    (fun lines c =>
      let content := strippedContent c
      if content = "" then lines else lines ++ [dcLine lookup c content])
    []

/-- ` (+N)` score annotation of the reddit linearizer. -/
def scoreText (score : Option Int) : String :=
  match score with
  | some s => " (+" ++ toString s ++ ")"
  | none => ""

/-- One rendered line of the reddit linearizer body. -/
def redditLine (lookup : List (String × String)) (c : RawComment) (content : String) :
    String :=
  let depth := metaDepth c.metadata
  let parentAuthor := c.parentExternalId.bind (fun p => dictLookup lookup p)
  let label :=
    if depth ≤ 0 then "[원댓글]"
    else
      match parentAuthor with
      | some pa => "[대댓글 → " ++ pa ++ "]"
      | none => "[대댓글]"
  indentFor depth ++ label ++ " " ++ pyAuthor c ++ scoreText c.score ++ ": " ++ content

/-- `_comments_for_summary` (store_reddit_posts.py lines 192-235). -/
def commentsForSummary (comments : List RawComment) : List String :=
  let lookup := idToAuthorReddit comments
  comments.foldl
    (fun lines c =>
      let content := strippedContent c
      if content = "" then lines else lines ++ [redditLine lookup c content])
    []

/-! ### Document composer (dcinside_worker.py lines 176-182) -/

def commentSectionHeader : String := "\n\n댓글 전체 목록 (원댓글/대댓글 구조):\n"

/-- Composition of the summarization input: the body text, and when
comment lines exist, the fixed section header plus all lines, with no
truncation of any part. -/
def composeSummaryInput (bodyText : String) (commentLines : List String) : String :=
  if commentLines.isEmpty then bodyText
  else bodyText ++ commentSectionHeader ++ String.intercalate "\n" commentLines

/-! ### Database rows and state (db_utils.py / services/db) -/

structure ItemRow where
  id : Nat
  sourceId : Nat
  externalId : String
  url : String
  title : String
  author : String
  content : Option String
  publishedAt : Option Int
  metadata : JsonObj
deriving DecidableEq

structure CommentRow where
  id : Nat
  itemId : Nat
  externalId : String
  author : String
  content : String
  createdAt : Option Int
  isDeleted : Bool
  metadata : JsonObj
  parentId : Option Nat
deriving DecidableEq

structure AssetRow where
  itemId : Nat
  assetType : String
  url : Option String
  localPath : Option String
  metadata : JsonObj
deriving DecidableEq

structure SummaryRow where
  itemId : Nat
  modelName : String
  summaryText : String
  summaryTitle : Option String
  meta : JsonObj
deriving DecidableEq

structure DbState where
  items : List ItemRow
  comments : List CommentRow
  assets : List AssetRow
  summaries : List SummaryRow
deriving DecidableEq

/-- `metadata_patch` of `update_item_with_summary`: `summary_error` is the
error when truthy, else json null. `nowIso` stands for
`datetime.now(timezone.utc).isoformat()`. -/
def summaryMetadataPatch (rawText : String) (imageCount : Nat) (nowIso : String)
    (lastError : Option String) : JsonObj :=
  [("raw_text", .strVal rawText),
   ("image_count", .intVal imageCount),
   ("summary_generated_at", .strVal nowIso),
   ("summary_error",
     match lastError with
     | some e => if e = "" then .nullVal else .strVal e
     | none => .nullVal)]

/-- `meta_payload` of `update_item_with_summary` (stored on the summary
row), updated with `extra_meta`. -/
def summaryMetaPayload (rawText : String) (imageCount : Nat)
    (lastError : Option String) (extraMeta : JsonObj) : JsonObj :=
  jsonbConcat
    [("image_count", .intVal imageCount),
     ("raw_text_length", .intVal rawText.length),
     ("last_error", match lastError with | some e => .strVal e | none => .nullVal)]
    extraMeta

/-- `db_utils.update_item_with_summary` (lines 447-503): unconditionally
`SET content = raw_text, metadata = metadata || patch` on the item, and a
plain INSERT of a summary row only when `summary` is truthy (the legacy
`item_summary` table has no `summary_title` column and no unique
(item_id, model_name) index). -/
def updateItemWithSummaryLegacy (db : DbState) (itemId : Nat)
    (summary : Option String) (rawText : String) (imageCount : Nat)
    (modelName : String) (nowIso : String) (lastError : Option String)
    (extraMeta : JsonObj) : DbState :=
  let patch := summaryMetadataPatch rawText imageCount nowIso lastError
  let items := db.items.map (fun it =>
    if it.id == itemId then
      { it with content := some rawText, metadata := jsonbConcat it.metadata patch }
    else it)
  let summaries :=
    if pyTruthy summary then
      db.summaries ++
        [{ itemId := itemId, modelName := modelName, summaryText := summary.getD "",
           summaryTitle := none,
           meta := summaryMetaPayload rawText imageCount lastError extraMeta }]
    else db.summaries
  { db with items := items, summaries := summaries }

/-- `INSERT ... ON CONFLICT (item_id, model_name) DO UPDATE` against the
packaged schema whose `uq_item_summary_item_model` index makes
(item_id, model_name) unique. -/
def upsertSummaryRow (rows : List SummaryRow) (r : SummaryRow) : List SummaryRow :=
  if rows.any (fun x => x.itemId == r.itemId && x.modelName == r.modelName) then
    rows.map (fun x =>
      if x.itemId == r.itemId && x.modelName == r.modelName then
        { x with summaryText := r.summaryText, summaryTitle := r.summaryTitle,
                 meta := r.meta }
      else x)
  else rows ++ [r]

/-- `services/db/items.py update_item_with_summary` (lines 119-182): same
item update, but the summary row upserts on (item_id, model_name) and
carries `summary_title or "\x7b\x7d"`. -/
def updateItemWithSummaryPkg (db : DbState) (itemId : Nat)
    (summary : Option String) (rawText : String) (imageCount : Nat)
    (modelName : String) (nowIso : String) (summaryTitle : Option String)
    (lastError : Option String) (extraMeta : JsonObj) : DbState :=
  let patch := summaryMetadataPatch rawText imageCount nowIso lastError
  let items := db.items.map (fun it =>
    if it.id == itemId then
      { it with content := some rawText, metadata := jsonbConcat it.metadata patch }
    else it)
  let summaries :=
    if pyTruthy summary then
      upsertSummaryRow db.summaries
        { itemId := itemId, modelName := modelName, summaryText := summary.getD "",
          summaryTitle := some ((pyOr summaryTitle none).getD "\x7b\x7d"),
          meta := summaryMetaPayload rawText imageCount lastError extraMeta }
    else db.summaries
  { db with items := items, summaries := summaries }

/-- `delete_item` plus the schema's `ON DELETE CASCADE` on comment,
item_asset and item_summary. -/
def deleteItem (db : DbState) (itemId : Nat) : DbState :=
  { items := db.items.filter (fun it => it.id ≠ itemId),
    comments := db.comments.filter (fun c => c.itemId ≠ itemId),
    assets := db.assets.filter (fun a => a.itemId ≠ itemId),
    summaries := db.summaries.filter (fun s => s.itemId ≠ itemId) }

/-- `replace_item_assets`: delete all assets of the item, insert the new
list. -/
def replaceItemAssets (db : DbState) (itemId : Nat) (assets : List AssetRow) :
    DbState :=
  { db with assets := db.assets.filter (fun a => a.itemId ≠ itemId) ++ assets }

/-! ### replace_item_comments (db_utils.py lines 310-372, identical in
services/db/comments.py) -/

/-- `str(raw.get("external_id") or raw.get("id") or "").strip()`. -/
def dbExternalId (raw : RawComment) : String :=
  pyStrip ((pyOr raw.externalId raw.idAlt).getD "")

/-- The declared parent of a raw comment as `replace_item_comments` reads
it: `raw.get("parent_external_id") or raw.get("parent_id")`, kept only
when it is a string with non-blank strip. -/
def declaredParent (raw : RawComment) : Option String :=
  (pyOr raw.parentExternalId raw.parentIdAlt).bind
    (fun p => if pyStrip p = "" then none else some (pyStrip p))

/-- The row created by the first-pass INSERT (parent_id starts NULL). -/
def mkCommentRow (itemId dbId : Nat) (raw : RawComment) : CommentRow :=
  { id := dbId, itemId := itemId, externalId := dbExternalId raw,
    author := (pyOr raw.author raw.userAlt).getD "",
    content := (pyOr raw.content raw.bodyAlt).getD "",
    createdAt := raw.createdAt, isDeleted := raw.isDeleted,
    metadata := raw.metadata, parentId := none }

/-- First pass of `replace_item_comments`: insert each raw comment with a
derivable external id, recording `inserted_ids` and the `pending` parent
links; `none` models the unique (item_id, external_id) index rejecting a
duplicate external id in the same batch. -/
def insertCommentsPass (itemId : Nat) :
    List RawComment → Nat → List CommentRow → List (String × Nat) →
    List (String × String) →
    Option (List CommentRow × List (String × Nat) × List (String × String))
  | [], _, rows, ids, pending => some (rows, ids, pending)
  | raw :: rest, nextId, rows, ids, pending =>
    let eid := dbExternalId raw
    if eid = "" then insertCommentsPass itemId rest nextId rows ids pending
    else if ids.any (fun p => p.1 == eid) then none
    else
      insertCommentsPass itemId rest (nextId + 1)
        (rows ++ [mkCommentRow itemId nextId raw]) (ids ++ [(eid, nextId)])
        (match declaredParent raw with
         | some p => pending ++ [(eid, p)]
         | none => pending)

/-- Second pass: for each pending (external id, parent external id),
set `parent_id` on the row with that external id when the parent resolves
in `inserted_ids`, skipping unresolved (and falsy id 0) parents. -/
def applyParentLinks : List CommentRow → List (String × Nat) →
    List (String × String) → List CommentRow
  | rows, _, [] => rows
  | rows, ids, (eid, parentExt) :: rest =>
    let rows' :=
      match dictLookupNat ids parentExt with
      | some pid =>
        if pid = 0 then rows
        else rows.map (fun r =>
          if r.externalId == eid then { r with parentId := some pid } else r)
      | none => rows
    applyParentLinks rows' ids rest

/-- `replace_item_comments`: wipe the item's comments, then the two
passes. `nextId` models the BIGSERIAL id counter. -/
def replaceItemComments (db : DbState) (itemId : Nat) (raws : List RawComment)
    (nextId : Nat) : Option DbState :=
  let cleared := db.comments.filter (fun c => c.itemId ≠ itemId)
  match insertCommentsPass itemId raws nextId [] [] [] with
  | none => none
  | some (rows, ids, pending) =>
    some { db with comments := cleared ++ applyParentLinks rows ids pending }

/-! ### upsert_items (db_utils.py lines 375-411, identical in
services/db/items.py) -/

/-- The values one producer row passes to the INSERT; the `content`
placeholder in the VALUES tuple is the literal `None` (line 403), so it
is not a field here. -/
structure PostInsert where
  sourceId : Nat
  externalId : String
  url : String
  title : String
  author : String
  publishedAt : Option Int
  metadata : JsonObj
deriving DecidableEq

def itemKeyMatches (it : ItemRow) (p : PostInsert) : Bool :=
  it.sourceId == p.sourceId && it.externalId == p.externalId

/-- `INSERT ... ON CONFLICT (source_id, external_id) DO UPDATE SET
url/title/author = EXCLUDED, content = COALESCE(item.content,
EXCLUDED.content) with EXCLUDED.content NULL, published_at =
COALESCE(EXCLUDED.published_at, item.published_at), metadata =
item.metadata || EXCLUDED.metadata`. -/
def upsertItem (items : List ItemRow) (p : PostInsert) (nextId : Nat) :
    List ItemRow :=
  if items.any (fun it => itemKeyMatches it p) then
    items.map (fun it =>
      if itemKeyMatches it p then
        { it with url := p.url, title := p.title, author := p.author,
                  content := it.content,
                  publishedAt :=
                    match p.publishedAt with
                    | some t => some t
                    | none => it.publishedAt,
                  metadata := jsonbConcat it.metadata p.metadata }
      else it)
  else
    items ++
      [{ id := nextId, sourceId := p.sourceId, externalId := p.externalId,
         url := p.url, title := p.title, author := p.author, content := none,
         publishedAt := p.publishedAt, metadata := p.metadata }]

/-! ### Video detection (content_fetcher.py lines 45-122) -/

def containsSchemeSep : List Char → Bool
  | ':' :: '/' :: '/' :: _ => true
  | _ :: rest => containsSchemeSep rest
  | [] => false

/-- After the first `://`, drop the authority (everything up to the next
slash). -/
def pathAfterAuthority : List Char → List Char
  | ':' :: '/' :: '/' :: rest => rest.dropWhile (fun c => c ≠ '/')
  | _ :: rest => pathAfterAuthority rest
  | [] => []

/-- `urlparse(url).path`: drop fragment and query; for a
`scheme://authority/...` url keep only the part from the first slash
after the authority. -/
def urlPath (url : String) : String :=
  let noFrag := url.data.takeWhile (fun c => c ≠ '#')
  let noQuery := noFrag.takeWhile (fun c => c ≠ '?')
  if containsSchemeSep noQuery then ⟨pathAfterAuthority noQuery⟩ else ⟨noQuery⟩

/-- `Path(p).suffix`: `name[i:]` for `i = name.rfind(".")` when
`0 < i < len(name) - 1`, else the empty suffix. -/
def pathSuffix (p : String) : String :=
  let base := (p.data.reverse.takeWhile (fun c => c ≠ '/')).reverse
  let afterDot := (base.reverse.takeWhile (fun c => c ≠ '.')).reverse
  if afterDot.length = base.length then ""
  else
    let i := base.length - afterDot.length - 1
    if 0 < i ∧ i < base.length - 1 then ⟨'.' :: afterDot⟩ else ""

def videoUrlSuffixes : List String := [".mp4", ".webm", ".mkv", ".mov", ".avi"]

/-- `contains_video_url`: any non-empty url whose lowered path suffix is a
video extension. -/
def containsVideoUrl (urls : List String) : Bool :=
  urls.any (fun url =>
    if url = "" then false
    else videoUrlSuffixes.contains (lowerStr (pathSuffix (urlPath url))))

/-! ### Queue consumption (worker_common.py) and the worker job steps -/

/-- Result of the payload decode at the top of `process_message`:
undecodable body, decodable body whose `item_id` is not an int, or a
valid item id. -/
inductive PayloadDecode where
  | malformed (msg : String)
  | missingItemId
  | itemId (id : Nat)
deriving DecidableEq

/-- What `process_message` does with one message: return a handled
`MessageHandlingResult` or raise `MessageHandlingError(msg, requeue)`. -/
inductive StepResult where
  | handled (msg : String)
  | failed (msg : String) (requeue : Bool)
deriving DecidableEq

inductive QueueAction where
  | ack
  | nackRequeue
  | nackDrop
deriving DecidableEq

/-- `RabbitMQClient.consume_one` acknowledgement policy (worker_common.py
lines 110-125): a returned result is acked, a `MessageHandlingError` is
nacked with its own requeue flag (unhandled exceptions are re-raised as
`MessageHandlingError(requeue=True)`, i.e. the `failed _ true` case). -/
def consumeOneAction : StepResult → QueueAction
  | .handled _ => .ack
  | .failed _ true => .nackRequeue
  | .failed _ false => .nackDrop

/-- The fields of `crawl_reddit.RedditPost` the reddit worker reads before
and at the video gate. -/
structure RedditPost where
  externalId : String
  url : String
  isVideo : Bool
  mediaUrls : List String
  comments : List RawComment
deriving DecidableEq

/-- Outcome of `fetch_reddit_post_by_url`: any raised exception, a `None`
return, or a post. -/
inductive RedditFetch where
  | raised (msg : String)
  | missing
  | fetched (post : RedditPost)
deriving DecidableEq

/-- Outcome of the first steps of a worker job: either the job finished
(with the database state it left) or processing continues past the video
gate. -/
inductive RedditEarly where
  | done (db : DbState) (r : StepResult)
  | proceed (db : DbState) (post : RedditPost)
deriving DecidableEq

/-- `reddit_worker.process_message` up to and including the video gate
(lines 110-158): payload decode, item lookup, detail fetch failure,
missing post, and video skip; every later step is reached only through
`proceed`. -/
def redditProcessEarly (payload : PayloadDecode) (fetch : RedditFetch)
    (primaryModel nowIso : String) (db : DbState) : RedditEarly :=
  match payload with
  | .malformed msg => .done db (.failed ("Invalid message payload: " ++ msg) false)
  | .missingItemId => .done db (.failed "Message missing valid item_id" false)
  | .itemId id =>
    if db.items.any (fun it => it.id == id) then
      match fetch with
      | .raised msg =>
        .done
          (updateItemWithSummaryLegacy db id none "" 0 primaryModel nowIso
            (some ("Detail fetch failed: " ++ msg)) [])
          (.handled ("Detail fetch failed for item " ++ toString id))
      | .missing =>
        .done
          (updateItemWithSummaryLegacy db id none "" 0 primaryModel nowIso
            (some "Reddit post not found") [])
          (.handled ("Missing post for item " ++ toString id))
      | .fetched post =>
        if post.isVideo || containsVideoUrl post.mediaUrls then
          .done
            (updateItemWithSummaryLegacy db id none "" 0 primaryModel nowIso
              (some "Skipped video post") [])
            (.handled ("Skipped video post " ++ toString id))
        else .proceed db post
    else .done db (.failed ("Item " ++ toString id ++ " not found") false)

/-- Outcome of `fetch_post_body` for the dcinside worker: a
`requests.RequestException` (the only caught class) or the detail tuple. -/
inductive DcFetch where
  | netError (msg : String)
  | fetched (body : String) (imageUrls : List String) (comments : List RawComment)
deriving DecidableEq

inductive DcEarly where
  | done (db : DbState) (r : StepResult)
  | proceed (db : DbState) (body : String) (imageUrls : List String)
      (comments : List RawComment)
deriving DecidableEq

/-- `dcinside_worker.process_message` up to and including the video gate
(lines 143-171): unlike the reddit worker, a video post deletes the item
outright. -/
def dcinsideProcessEarly (payload : PayloadDecode) (fetch : DcFetch)
    (primaryModel nowIso : String) (db : DbState) : DcEarly :=
  match payload with
  | .malformed msg => .done db (.failed ("Invalid message payload: " ++ msg) false)
  | .missingItemId => .done db (.failed "Message missing valid item_id" false)
  | .itemId id =>
    if db.items.any (fun it => it.id == id) then
      match fetch with
      | .netError msg =>
        .done
          (updateItemWithSummaryLegacy db id none "" 0 primaryModel nowIso
            (some ("Detail fetch failed: " ++ msg)) [])
          (.handled ("Detail fetch failed for item " ++ toString id))
      | .fetched body imageUrls comments =>
        if containsVideoUrl imageUrls then
          .done (deleteItem db id) (.handled ("Skipped video post " ++ toString id))
        else .proceed db body imageUrls comments
    else .done db (.failed ("Item " ++ toString id ++ " not found") false)

/-! ### Summarization failure fallback in the workers (reddit_worker.py
lines 179-196, identically in dcinside_worker.py lines 196-213) -/

/-- Modelled from the spec (claim side, for the truncation claim): the
body text hard-truncated to the budget, with the comment block appended
in full afterwards. The code is compared against this description. -/
def composeClaimDoc (bodyText : String) (commentLines : List String)
    (maxLen : Nat) : String :=
  let truncatedBody :=
    if bodyText.length > maxLen then String.take bodyText maxLen ++ "\n..."
    else bodyText
  if commentLines.isEmpty then truncatedBody
  else truncatedBody ++ commentSectionHeader ++ String.intercalate "\n" commentLines

/-- Modelled from the spec (claim side, for the linearizer claim): render
one comment — skip empty content; indent one two-space unit per depth
level; depth 0 gets the root label, a deeper comment the reply label
naming the parent author when the parent external id resolves in the
batch lookup, else the generic reply label. -/
def claimRenderLine (lookup : List (String × String)) (withScore : Bool)
    (c : RawComment) : Option String :=
  let content := strippedContent c
  if content = "" then none
  else
    let depth := metaDepth c.metadata
    let indentation := String.join (List.replicate depth.toNat "  ")
    let label :=
      if depth = 0 then "[원댓글]"
      else
        match c.parentExternalId with
        | some p =>
          match dictLookup lookup p with
          | some parentAuthor => "[대댓글 → " ++ parentAuthor ++ "]"
          | none => "[대댓글]"
        | none => "[대댓글]"
    let annotation := if withScore then scoreText c.score else ""
    some (indentation ++ label ++ " " ++ pyAuthor c ++ annotation ++ ": " ++ content)

/-- Claim-side linearizer for the dcinside renderer. -/
def linearizeClaimDc (cs : List RawComment) : List String :=
  cs.filterMap (claimRenderLine (idToAuthorDc cs) false)

/-- Claim-side linearizer for the reddit renderer. -/
def linearizeClaimReddit (cs : List RawComment) : List String :=
  cs.filterMap (claimRenderLine (idToAuthorReddit cs) true)

/-- The external ids `replace_item_comments` derives and keeps. -/
def eidsOf (raws : List RawComment) : List String :=
  raws.filterMap (fun raw =>
    if dbExternalId raw = "" then none else some (dbExternalId raw))

/-- Non-accumulator description of the rows created by the first pass. -/
def rowsOf (itemId : Nat) : List RawComment → Nat → List CommentRow
  | [], _ => []
  | raw :: rest, n =>
    if dbExternalId raw = "" then rowsOf itemId rest n
    else mkCommentRow itemId n raw :: rowsOf itemId rest (n + 1)

/-- Non-accumulator description of `inserted_ids`. -/
def idsOf : List RawComment → Nat → List (String × Nat)
  | [], _ => []
  | raw :: rest, n =>
    if dbExternalId raw = "" then idsOf rest n
    else (dbExternalId raw, n) :: idsOf rest (n + 1)

/-- Non-accumulator description of the `pending` parent links. -/
def pendingOf : List RawComment → List (String × String)
  | [] => []
  | raw :: rest =>
    if dbExternalId raw = "" then pendingOf rest
    else
      match declaredParent raw with
      | some p => (dbExternalId raw, p) :: pendingOf rest
      | none => pendingOf rest

/-- The second pass seen from a single row: fold the pending updates over
one row. -/
def applyPendingToRow (ids : List (String × Nat)) :
    CommentRow → List (String × String) → CommentRow
  | r, [] => r
  | r, (eid, parentExt) :: rest =>
    let r' :=
      match dictLookupNat ids parentExt with
      | some pid =>
        if pid = 0 then r
        else if r.externalId == eid then { r with parentId := some pid } else r
      | none => r
    applyPendingToRow ids r' rest

/-! ## Shared lemmas -/

theorem jsonLookup_jsonbConcat (a b : JsonObj) (k : String) :
    jsonLookup (jsonbConcat a b) k =
      match jsonLookup b k with
      | some v => some v
      | none => jsonLookup a k := by
  unfold jsonLookup jsonbConcat
  rw [List.reverse_append, List.find?_append]
  cases h : b.reverse.find? (fun p => p.1 == k) <;> simp [h, Option.or]

/-! ## C1: model fallback loop behaviour -/

/-- C1: with a non-empty ordered model list the summarization client
iterates the models in priority order; a model whose cooldown expiry is
in the future is skipped; a quota-class failure sets that model cooldown
to now plus the configured duration with a 30-second floor and moves on
to the next model; a success clears the model cooldown and returns the
(summary, model) pair at once, whatever models remain; and the entry
point runs exactly this loop over the cleaned priority list. -/
theorem model_fallback_behaviour (outcome : String → ModelOutcome)
    (now cd : Nat) (model : String) (rest : List String) (cds : Cooldowns)
    (errors : List String) (la : Option String) :
    (cooldownActive cds model now = true →
      summariseLoop outcome now cd (model :: rest) cds errors la
        = summariseLoop outcome now cd rest cds errors la)
    ∧ (∀ s, cooldownActive cds model now = false → outcome model = .success s →
      summariseLoop outcome now cd (model :: rest) cds errors la
        = .ok s model (cdErase cds model))
    ∧ (∀ msg, cooldownActive cds model now = false → outcome model = .quotaError msg →
      summariseLoop outcome now cd (model :: rest) cds errors la
        = summariseLoop outcome now cd rest (cdSet cds model (now + max cd 30))
            (errors ++ [msg]) (some model))
    ∧ (∀ (text : String) (hasImages : Bool) (cfg : GeminiConfig) (cds0 : Cooldowns),
        cfg.apiKey ≠ "" →
        prepareTextToUse text hasImages cfg.maxTextLength ≠ none →
        availableModels cfg ≠ [] →
        summariseWithGemini outcome now text hasImages cfg cds0
          = summariseLoop outcome now cfg.cooldownSeconds (availableModels cfg)
              cds0 [] none) := by
  refine ⟨?_, ?_, ?_, ?_⟩
  · intro h
    simp [summariseLoop, h]
  · intro s h hs
    simp [summariseLoop, h, hs]
  · intro msg h hq
    simp [summariseLoop, h, hq]
  · intro text hasImages cfg cds0 h1 h2 h3
    unfold summariseWithGemini
    rw [if_neg h1]
    cases hp : prepareTextToUse text hasImages cfg.maxTextLength with
    | none => exact absurd hp h2
    | some t => rw [if_neg h3]

/-- Witness for C1: the skip, success, quota and entry-point cases at
concrete inputs. -/
theorem model_fallback_behaviour_witness :
    (summariseLoop (fun m => if m = "m1" then .success "ok" else .quotaError "q")
        50 600 ["m1", "m2"] [("m1", 100)] [] none
      = summariseLoop (fun m => if m = "m1" then .success "ok" else .quotaError "q")
          50 600 ["m2"] [("m1", 100)] [] none)
    ∧ (summariseLoop (fun m => if m = "m1" then .success "ok" else .quotaError "q")
        50 600 ["m1", "m2"] [] [] none = .ok "ok" "m1" [])
    ∧ (summariseLoop (fun m => if m = "m1" then .success "ok" else .quotaError "q")
        50 600 ["m2", "m1"] [] [] none
      = summariseLoop (fun m => if m = "m1" then .success "ok" else .quotaError "q")
          50 600 ["m1"] [("m2", 650)] ["q"] (some "m2"))
    ∧ (summariseWithGemini (fun m => if m = "m1" then .success "ok" else .quotaError "q")
        50 "hello" false ⟨"key", ["m1"], 60, 100, false, 600, 8⟩ []
      = summariseLoop (fun m => if m = "m1" then .success "ok" else .quotaError "q")
          50 600 (availableModels ⟨"key", ["m1"], 60, 100, false, 600, 8⟩) [] [] none) :=
  ⟨(model_fallback_behaviour _ 50 600 "m1" ["m2"] [("m1", 100)] [] none).1 (by decide),
   (model_fallback_behaviour _ 50 600 "m1" ["m2"] [] [] none).2.1 "ok" (by decide) (by decide),
   (model_fallback_behaviour _ 50 600 "m2" ["m1"] [] [] none).2.2.1 "q" (by decide) (by decide),
   (model_fallback_behaviour _ 50 600 "m1" [] [] [] none).2.2.2 "hello" false
     ⟨"key", ["m1"], 60, 100, false, 600, 8⟩ [] (by decide) (by decide) (by decide)⟩

/-! ## C2: video skip -/

/-- C2 is false as stated: on the Reddit worker a video-suffixed media
URL does not delete the Item. At this concrete input the job terminates
as handled, yet the item row (and its comment row) still exists
afterwards. -/
theorem video_skip_counterexample :
    (match
        redditProcessEarly (.itemId 1)
          (.fetched { externalId := "e", url := "u", isVideo := false,
                      mediaUrls := ["https://v.redd.it/x.mp4"], comments := [] })
          "gemini-2.5-flash" "2026-01-01T00:00:00"
          { items := [{ id := 1, sourceId := 1, externalId := "e", url := "u",
                        title := "t", author := "a", content := some "body",
                        publishedAt := none, metadata := [] }],
            comments := [{ id := 10, itemId := 1, externalId := "c1", author := "au",
                           content := "hi", createdAt := none, isDeleted := false,
                           metadata := [], parentId := none }],
            assets := [], summaries := [] } with
      | .done db r =>
        db.items.any (fun it => it.id == 1) && (db.comments.length == 1)
          && (r == .handled "Skipped video post 1")
      | .proceed _ _ => false) = true := by
  decide

/-- C2 (amended): only the DCInside worker deletes a video item — there
the Item is removed and no comment, asset or summary row for it remains,
and the job is handled. The Reddit worker instead keeps the item: it
records the failure marker with no summary row and leaves the item list
length, comments and assets untouched, also terminating as handled. -/
theorem video_skip_behaviour (db : DbState) (id : Nat) (pm iso body : String)
    (urls : List String) (cs : List RawComment) (post : RedditPost)
    (hItem : db.items.any (fun it => it.id == id) = true) :
    (containsVideoUrl urls = true →
      dcinsideProcessEarly (.itemId id) (.fetched body urls cs) pm iso db
          = .done (deleteItem db id) (.handled ("Skipped video post " ++ toString id))
        ∧ (∀ it ∈ (deleteItem db id).items, it.id ≠ id)
        ∧ (∀ c ∈ (deleteItem db id).comments, c.itemId ≠ id)
        ∧ (∀ a ∈ (deleteItem db id).assets, a.itemId ≠ id)
        ∧ (∀ s ∈ (deleteItem db id).summaries, s.itemId ≠ id))
    ∧ ((post.isVideo || containsVideoUrl post.mediaUrls) = true →
      redditProcessEarly (.itemId id) (.fetched post) pm iso db
          = .done
              (updateItemWithSummaryLegacy db id none "" 0 pm iso
                (some "Skipped video post") [])
              (.handled ("Skipped video post " ++ toString id))
        ∧ (updateItemWithSummaryLegacy db id none "" 0 pm iso
            (some "Skipped video post") []).items.length = db.items.length
        ∧ (∃ it ∈ (updateItemWithSummaryLegacy db id none "" 0 pm iso
            (some "Skipped video post") []).items, it.id = id)
        ∧ (updateItemWithSummaryLegacy db id none "" 0 pm iso
            (some "Skipped video post") []).summaries = db.summaries
        ∧ (updateItemWithSummaryLegacy db id none "" 0 pm iso
            (some "Skipped video post") []).comments = db.comments
        ∧ (updateItemWithSummaryLegacy db id none "" 0 pm iso
            (some "Skipped video post") []).assets = db.assets
        ∧ (∀ it ∈ (updateItemWithSummaryLegacy db id none "" 0 pm iso
            (some "Skipped video post") []).items, it.id = id →
            it.content = some ""
            ∧ jsonLookup it.metadata "summary_error"
              = some (.strVal "Skipped video post"))) := by
  constructor
  · intro hVid
    refine ⟨?_, ?_, ?_, ?_, ?_⟩
    · simp [dcinsideProcessEarly, hItem, hVid]
    · intro it hmem
      simp [deleteItem, List.mem_filter] at hmem
      exact hmem.2
    · intro c hmem
      simp [deleteItem, List.mem_filter] at hmem
      exact hmem.2
    · intro a hmem
      simp [deleteItem, List.mem_filter] at hmem
      exact hmem.2
    · intro s hmem
      simp [deleteItem, List.mem_filter] at hmem
      exact hmem.2
  · intro hVid
    refine ⟨?_, ?_, ?_, ?_, ?_, ?_, ?_⟩
    · simp [redditProcessEarly, hItem, hVid]
    · simp [updateItemWithSummaryLegacy, pyTruthy]
    · obtain ⟨it, hmem, hid⟩ := List.any_eq_true.mp hItem
      have hid' : it.id = id := by simpa using hid
      simp only [updateItemWithSummaryLegacy]
      refine ⟨_, List.mem_map_of_mem _ hmem, ?_⟩
      simp [hid']
    · rfl
    · rfl
    · rfl
    · intro it hmem hid
      have hitems : (updateItemWithSummaryLegacy db id none "" 0 pm iso
          (some "Skipped video post") []).items
          = db.items.map (fun it =>
              if it.id == id then
                { it with
                  content := some "",
                  metadata := jsonbConcat it.metadata
                    (summaryMetadataPatch "" 0 iso (some "Skipped video post")) }
              else it) := by
        simp [updateItemWithSummaryLegacy]
      rw [hitems] at hmem
      obtain ⟨it0, hmem0, heq⟩ := List.mem_map.mp hmem
      by_cases h0 : (it0.id == id) = true
      · rw [if_pos h0] at heq
        refine ⟨by rw [← heq], ?_⟩
        rw [← heq, jsonLookup_jsonbConcat]
        have hne : ("Skipped video post" : String) ≠ "" := by decide
        simp [summaryMetadataPatch, jsonLookup, hne]
      · rw [if_neg h0] at heq
        rw [← heq] at hid
        exact absurd (by simp [hid]) h0

/-- Witness for C2 (amended) at a concrete item, database and video
post. -/
theorem video_skip_behaviour_witness :
    dcinsideProcessEarly (.itemId 1) (.fetched "b" ["https://g.com/v.mp4"] [])
        "m" "t"
        { items := [{ id := 1, sourceId := 1, externalId := "e", url := "u",
                      title := "t", author := "a", content := some "body",
                      publishedAt := none, metadata := [] }],
          comments := [], assets := [], summaries := [] }
      = .done
          (deleteItem
            { items := [{ id := 1, sourceId := 1, externalId := "e", url := "u",
                          title := "t", author := "a", content := some "body",
                          publishedAt := none, metadata := [] }],
              comments := [], assets := [], summaries := [] } 1)
          (.handled "Skipped video post 1")
    ∧ redditProcessEarly (.itemId 1)
        (.fetched { externalId := "e", url := "u", isVideo := true,
                    mediaUrls := [], comments := [] }) "m" "t"
        { items := [{ id := 1, sourceId := 1, externalId := "e", url := "u",
                      title := "t", author := "a", content := some "body",
                      publishedAt := none, metadata := [] }],
          comments := [], assets := [], summaries := [] }
      = .done
          (updateItemWithSummaryLegacy
            { items := [{ id := 1, sourceId := 1, externalId := "e", url := "u",
                          title := "t", author := "a", content := some "body",
                          publishedAt := none, metadata := [] }],
              comments := [], assets := [], summaries := [] }
            1 none "" 0 "m" "t" (some "Skipped video post") [])
          (.handled "Skipped video post 1")
    ∧ ∃ it ∈ (updateItemWithSummaryLegacy
        { items := [{ id := 1, sourceId := 1, externalId := "e", url := "u",
                      title := "t", author := "a", content := some "body",
                      publishedAt := none, metadata := [] }],
          comments := [], assets := [], summaries := [] }
        1 none "" 0 "m" "t" (some "Skipped video post") []).items,
        it.id = 1 ∧ it.content = some ""
          ∧ jsonLookup it.metadata "summary_error"
              = some (.strVal "Skipped video post") := by
  have h := video_skip_behaviour
    { items := [{ id := 1, sourceId := 1, externalId := "e", url := "u",
                  title := "t", author := "a", content := some "body",
                  publishedAt := none, metadata := [] }],
      comments := [], assets := [], summaries := [] }
    1 "m" "t" "b" ["https://g.com/v.mp4"] []
    { externalId := "e", url := "u", isVideo := true, mediaUrls := [],
      comments := [] } (by decide)
  refine ⟨(h.1 (by decide)).1, (h.2 (by decide)).1, ?_⟩
  obtain ⟨it, hmem, hid⟩ := (h.2 (by decide)).2.2.1
  obtain ⟨hc, hm⟩ := (h.2 (by decide)).2.2.2.2.2.2 it hmem hid
  exact ⟨it, hmem, hid, hc, hm⟩

/-! ## C3: truncation boundary -/

/-- C3 is false as stated: truncation is not applied to the body before
the comment block is appended. With budget 5, body of length 7 and one
comment line, the text prepared for the model is the truncated whole
document — the comment block has been cut off — and differs from the
claim-side document in which the comment block survives truncation. -/
theorem truncation_counterexample :
    prepareTextToUse (composeSummaryInput "aaaaaaa" ["[원댓글] u: hi"]) false 5
      = some "aaaaa\n..."
    ∧ some "aaaaa\n..." ≠ some (composeClaimDoc "aaaaaaa" ["[원댓글] u: hi"] 5) := by
  decide

/-- C3 (amended): the worker composes body plus the full comment block
with no truncation at all (so the composed document may exceed the
budget), and the summarization client afterwards strips the whole
composed document and hard-truncates it — body and comment block
together — to `max_text_length` characters plus the fixed marker when it
exceeds the budget, leaving it untouched when within budget. -/
theorem truncation_behaviour (body t : String) (lines : List String)
    (hasImages : Bool) (maxLen : Nat) :
    (lines ≠ [] →
      composeSummaryInput body lines
        = body ++ commentSectionHeader ++ String.intercalate "\n" lines)
    ∧ composeSummaryInput body [] = body
    ∧ (pyStrip t ≠ "" → (pyStrip t).length > maxLen →
        prepareTextToUse t hasImages maxLen
          = some (String.take (pyStrip t) maxLen ++ "\n..."))
    ∧ (pyStrip t ≠ "" → ¬((pyStrip t).length > maxLen) →
        prepareTextToUse t hasImages maxLen = some (pyStrip t)) := by
  refine ⟨?_, rfl, ?_, ?_⟩
  · intro h
    simp [composeSummaryInput, List.isEmpty_iff, h]
  · intro h1 h2
    simp [prepareTextToUse, h1, h2]
  · intro h1 h2
    simp [prepareTextToUse, h1, h2]

/-- Witness for C3 (amended): composition keeps the comment line and the
client truncates or keeps the stripped document at concrete inputs. -/
theorem truncation_behaviour_witness :
    composeSummaryInput "B" ["L"] = "B" ++ commentSectionHeader ++ "L"
    ∧ composeSummaryInput "B" [] = "B"
    ∧ prepareTextToUse "  hello  " false 3 = some "hel\n..."
    ∧ prepareTextToUse "  hello  " false 10 = some "hello" :=
  ⟨(truncation_behaviour "B" "  hello  " ["L"] false 3).1 (by decide),
   (truncation_behaviour "B" "  hello  " ["L"] false 3).2.1,
   (truncation_behaviour "B" "  hello  " ["L"] false 3).2.2.1 (by decide) (by decide),
   (truncation_behaviour "B" "  hello  " ["L"] false 10).2.2.2 (by decide) (by decide)⟩

/-! ## C4: summary rows keyed by (item, model) -/

theorem upsertSummaryRow_countP (rows : List SummaryRow) (r : SummaryRow)
    (i : Nat) (m : String) (hri : r.itemId = i) (hrm : r.modelName = m)
    (h : rows.countP
      (fun x => x.itemId == i && x.modelName == m) ≤ 1) :
    (upsertSummaryRow rows r).countP
      (fun x => x.itemId == i && x.modelName == m) = 1 := by
  subst hri
  subst hrm
  unfold upsertSummaryRow
  by_cases hAny :
      rows.any (fun x => x.itemId == r.itemId && x.modelName == r.modelName) = true
  · rw [if_pos hAny, List.countP_map]
    have hp : ∀ x : SummaryRow,
        ((fun x => x.itemId == r.itemId && x.modelName == r.modelName) ∘
          (fun x => if x.itemId == r.itemId && x.modelName == r.modelName then
            { x with summaryText := r.summaryText, summaryTitle := r.summaryTitle,
                     meta := r.meta }
          else x)) x
          = (fun x => x.itemId == r.itemId && x.modelName == r.modelName) x := by
      intro x
      by_cases hk1 : x.itemId = r.itemId
      · by_cases hk2 : x.modelName = r.modelName
        · simp [hk1, hk2]
        · simp [hk2]
      · simp [hk1]
    rw [List.countP_congr (fun x _ => by rw [hp x])]
    obtain ⟨x, hx, hkey⟩ := List.any_eq_true.mp hAny
    have hpos : 0 < rows.countP
        (fun x => x.itemId == r.itemId && x.modelName == r.modelName) :=
      List.countP_pos_iff.mpr ⟨x, hx, hkey⟩
    omega
  · rw [if_neg hAny, List.countP_append]
    have h0 : rows.countP
        (fun x => x.itemId == r.itemId && x.modelName == r.modelName) = 0 := by
      rw [List.countP_eq_zero]
      intro x hx hp
      exact absurd (List.any_eq_true.mpr ⟨x, hx, hp⟩) hAny
    simp [h0]

theorem upsertSummaryRow_length (rows : List SummaryRow) (r : SummaryRow)
    (i : Nat) (m : String) (hri : r.itemId = i) (hrm : r.modelName = m)
    (h : rows.any
      (fun x => x.itemId == i && x.modelName == m) = true) :
    (upsertSummaryRow rows r).length = rows.length := by
  subst hri
  subst hrm
  unfold upsertSummaryRow
  rw [if_pos h, List.length_map]

theorem upsertSummaryRow_overwrites (rows : List SummaryRow) (r : SummaryRow) :
    ∃ x ∈ upsertSummaryRow rows r, x.itemId = r.itemId ∧ x.modelName = r.modelName
      ∧ x.summaryText = r.summaryText ∧ x.summaryTitle = r.summaryTitle
      ∧ x.meta = r.meta := by
  unfold upsertSummaryRow
  by_cases hAny :
      rows.any (fun x => x.itemId == r.itemId && x.modelName == r.modelName) = true
  · rw [if_pos hAny]
    obtain ⟨x, hx, hkey⟩ := List.any_eq_true.mp hAny
    refine ⟨_, List.mem_map_of_mem _ hx, ?_⟩
    have h1 : x.itemId = r.itemId := by
      have := (Bool.and_eq_true _ _).mp hkey
      simpa using this.1
    have h2 : x.modelName = r.modelName := by
      have := (Bool.and_eq_true _ _).mp hkey
      simpa using this.2
    simp [hkey, h1, h2]
  · rw [if_neg hAny]
    exact ⟨r, by simp, rfl, rfl, rfl, rfl, rfl⟩

/-- C4 is false for the legacy db layer the workers import: that
`item_summary` table has no (item_id, model_name) unique index and
`db_utils.update_item_with_summary` plain-INSERTs, so persisting twice
with the same (item, model) pair leaves two rows. -/
theorem summary_unique_key_counterexample :
    ((updateItemWithSummaryLegacy
        (updateItemWithSummaryLegacy
          { items := [{ id := 1, sourceId := 1, externalId := "e", url := "u",
                        title := "t", author := "a", content := none,
                        publishedAt := none, metadata := [] }],
            comments := [], assets := [], summaries := [] }
          1 (some "s1") "r" 0 "m" "t1" none [])
        1 (some "s2") "r" 0 "m" "t2" none []).summaries.countP
      (fun x => x.itemId == 1 && x.modelName == "m")) = 2 := by
  decide

/-- C4 (amended): the packaged db layer (schema.py creates the unique
(item_id, model_name) index; items.py upserts with ON CONFLICT DO
UPDATE) keeps at most one summary row per (item, model) and re-persisting
the same pair overwrites in place, adding no row; the legacy db_utils
copy instead plain-INSERTs a second row. -/
theorem summary_unique_key_pkg (db : DbState) (i : Nat) (m : String)
    (s1 s2 : Option String) (r1 r2 : String) (n1 n2 : Nat)
    (iso1 iso2 : String) (t1 t2 e1 e2 : Option String) (x1 x2 : JsonObj)
    (hcount : db.summaries.countP
      (fun x => x.itemId == i && x.modelName == m) ≤ 1)
    (h1 : pyTruthy s1 = true) (h2 : pyTruthy s2 = true) :
    ((updateItemWithSummaryPkg (updateItemWithSummaryPkg db i s1 r1 n1 m iso1 t1 e1 x1)
        i s2 r2 n2 m iso2 t2 e2 x2).summaries.countP
      (fun x => x.itemId == i && x.modelName == m)) = 1
    ∧ (updateItemWithSummaryPkg (updateItemWithSummaryPkg db i s1 r1 n1 m iso1 t1 e1 x1)
        i s2 r2 n2 m iso2 t2 e2 x2).summaries.length
      = (updateItemWithSummaryPkg db i s1 r1 n1 m iso1 t1 e1 x1).summaries.length
    ∧ ∃ x ∈ (updateItemWithSummaryPkg (updateItemWithSummaryPkg db i s1 r1 n1 m iso1 t1 e1 x1)
        i s2 r2 n2 m iso2 t2 e2 x2).summaries,
        x.itemId = i ∧ x.modelName = m ∧ x.summaryText = s2.getD "" := by
  have hs1 : (updateItemWithSummaryPkg db i s1 r1 n1 m iso1 t1 e1 x1).summaries
      = upsertSummaryRow db.summaries
          { itemId := i, modelName := m, summaryText := s1.getD "",
            summaryTitle := some ((pyOr t1 none).getD "\x7b\x7d"),
            meta := summaryMetaPayload r1 n1 e1 x1 } := by
    simp [updateItemWithSummaryPkg, h1]
  have hs2 : (updateItemWithSummaryPkg (updateItemWithSummaryPkg db i s1 r1 n1 m iso1 t1 e1 x1)
      i s2 r2 n2 m iso2 t2 e2 x2).summaries
      = upsertSummaryRow
          (upsertSummaryRow db.summaries
            { itemId := i, modelName := m, summaryText := s1.getD "",
              summaryTitle := some ((pyOr t1 none).getD "\x7b\x7d"),
              meta := summaryMetaPayload r1 n1 e1 x1 })
          { itemId := i, modelName := m, summaryText := s2.getD "",
            summaryTitle := some ((pyOr t2 none).getD "\x7b\x7d"),
            meta := summaryMetaPayload r2 n2 e2 x2 } := by
    simp [updateItemWithSummaryPkg, h1, h2, hs1]
  have hc1 : (upsertSummaryRow db.summaries
      { itemId := i, modelName := m, summaryText := s1.getD "",
        summaryTitle := some ((pyOr t1 none).getD "\x7b\x7d"),
        meta := summaryMetaPayload r1 n1 e1 x1 }).countP
      (fun x => x.itemId == i && x.modelName == m) = 1 :=
    upsertSummaryRow_countP db.summaries _ i m rfl rfl hcount
  refine ⟨?_, ?_, ?_⟩
  · rw [hs2]
    exact upsertSummaryRow_countP _ _ i m rfl rfl (by rw [hc1])
  · rw [hs2, hs1]
    refine upsertSummaryRow_length _ _ i m rfl rfl ?_
    have hpos : 0 < (upsertSummaryRow db.summaries
        { itemId := i, modelName := m, summaryText := s1.getD "",
          summaryTitle := some ((pyOr t1 none).getD "\x7b\x7d"),
          meta := summaryMetaPayload r1 n1 e1 x1 }).countP
        (fun x => x.itemId == i && x.modelName == m) := by
      rw [hc1]
      omega
    obtain ⟨x, hx, hp⟩ := List.countP_pos_iff.mp hpos
    exact List.any_eq_true.mpr ⟨x, hx, hp⟩
  · rw [hs2]
    obtain ⟨x, hx, hrest⟩ := upsertSummaryRow_overwrites
      (upsertSummaryRow db.summaries
        { itemId := i, modelName := m, summaryText := s1.getD "",
          summaryTitle := some ((pyOr t1 none).getD "\x7b\x7d"),
          meta := summaryMetaPayload r1 n1 e1 x1 })
      { itemId := i, modelName := m, summaryText := s2.getD "",
        summaryTitle := some ((pyOr t2 none).getD "\x7b\x7d"),
        meta := summaryMetaPayload r2 n2 e2 x2 }
    exact ⟨x, hx, hrest.1, hrest.2.1, hrest.2.2.1⟩

/-- Witness for C4 (amended) at a concrete database and two persists of
the same (item, model) pair. -/
theorem summary_unique_key_pkg_witness :
    ((updateItemWithSummaryPkg
        (updateItemWithSummaryPkg
          { items := [], comments := [], assets := [], summaries := [] }
          1 (some "s1") "r" 0 "m" "t1" none none [])
        1 (some "s2") "r" 0 "m" "t2" none none []).summaries.countP
      (fun x => x.itemId == 1 && x.modelName == "m")) = 1
    ∧ (updateItemWithSummaryPkg
        (updateItemWithSummaryPkg
          { items := [], comments := [], assets := [], summaries := [] }
          1 (some "s1") "r" 0 "m" "t1" none none [])
        1 (some "s2") "r" 0 "m" "t2" none none []).summaries.length
      = (updateItemWithSummaryPkg
          { items := [], comments := [], assets := [], summaries := [] }
          1 (some "s1") "r" 0 "m" "t1" none none []).summaries.length :=
  ⟨(summary_unique_key_pkg
      { items := [], comments := [], assets := [], summaries := [] }
      1 "m" (some "s1") (some "s2") "r" "r" 0 0 "t1" "t2" none none none none [] []
      (by decide) (by decide) (by decide)).1,
   (summary_unique_key_pkg
      { items := [], comments := [], assets := [], summaries := [] }
      1 "m" (some "s1") (some "s2") "r" "r" 0 0 "t1" "t2" none none none none [] []
      (by decide) (by decide) (by decide)).2.1⟩

/-! ## C5: idempotent item upsert -/

theorem upsertItem_key_mem (items : List ItemRow) (p : PostInsert) (n : Nat) :
    (upsertItem items p n).any (fun it => itemKeyMatches it p) = true := by
  unfold upsertItem
  by_cases h : items.any (fun it => itemKeyMatches it p) = true
  · rw [if_pos h]
    obtain ⟨it, hmem, hkey⟩ := List.any_eq_true.mp h
    refine List.any_eq_true.mpr ⟨_, List.mem_map_of_mem _ hmem, ?_⟩
    rw [if_pos hkey]
    simpa [itemKeyMatches] using hkey
  · rw [if_neg h, List.any_append]
    simp [itemKeyMatches]

theorem upsertItem_countP (items : List ItemRow) (p : PostInsert) (n : Nat)
    (h : items.countP (fun it => itemKeyMatches it p) ≤ 1) :
    (upsertItem items p n).countP (fun it => itemKeyMatches it p) = 1 := by
  unfold upsertItem
  by_cases hAny : items.any (fun it => itemKeyMatches it p) = true
  · rw [if_pos hAny, List.countP_map]
    have hp : ∀ it : ItemRow,
        ((fun it => itemKeyMatches it p) ∘
          (fun it =>
            if itemKeyMatches it p then
              { it with url := p.url, title := p.title, author := p.author,
                        content := it.content,
                        publishedAt :=
                          match p.publishedAt with
                          | some t => some t
                          | none => it.publishedAt,
                        metadata := jsonbConcat it.metadata p.metadata }
            else it)) it
          = (fun it => itemKeyMatches it p) it := by
      intro it
      by_cases hk : itemKeyMatches it p = true
      · simp only [Function.comp_apply, if_pos hk]
        rfl
      · simp only [Function.comp_apply, if_neg hk]
    rw [List.countP_congr (fun x _ => by rw [hp x])]
    obtain ⟨it, hmem, hkey⟩ := List.any_eq_true.mp hAny
    have hpos : 0 < items.countP (fun it => itemKeyMatches it p) :=
      List.countP_pos_iff.mpr ⟨it, hmem, hkey⟩
    omega
  · have h0 : items.countP (fun it => itemKeyMatches it p) = 0 := by
      rw [List.countP_eq_zero]
      intro it hmem hkey
      exact absurd (List.any_eq_true.mpr ⟨it, hmem, hkey⟩) hAny
    rw [if_neg hAny, List.countP_append, h0]
    simp [itemKeyMatches]

theorem upsertItem_length (items : List ItemRow) (p : PostInsert) (n : Nat)
    (h : items.any (fun it => itemKeyMatches it p) = true) :
    (upsertItem items p n).length = items.length := by
  unfold upsertItem
  rw [if_pos h, List.length_map]

/-- C5: upserting the same (source, external_id) twice never yields two
rows with that key; the second upsert updates url/title/author, merges
metadata by key union with the new values winning on overlap, and keeps
the previously stored body content unchanged (the INSERT carries NULL
content and the conflict branch coalesces in favour of the stored
value). -/
theorem idempotent_upsert (items : List ItemRow) (p q : PostInsert)
    (n1 n2 : Nat) (hks : p.sourceId = q.sourceId)
    (hke : p.externalId = q.externalId)
    (hcount : items.countP (fun it => itemKeyMatches it p) ≤ 1) :
    ((upsertItem (upsertItem items p n1) q n2).countP
        (fun it => itemKeyMatches it q) = 1)
    ∧ (upsertItem (upsertItem items p n1) q n2).length
        = (upsertItem items p n1).length
    ∧ (∀ it ∈ upsertItem items p n1, itemKeyMatches it q = true →
        ∃ it2 ∈ upsertItem (upsertItem items p n1) q n2,
          it2.id = it.id ∧ it2.url = q.url ∧ it2.title = q.title
          ∧ it2.author = q.author ∧ it2.content = it.content
          ∧ it2.metadata = jsonbConcat it.metadata q.metadata
          ∧ ∀ k, jsonLookup it2.metadata k
              = match jsonLookup q.metadata k with
                | some v => some v
                | none => jsonLookup it.metadata k) := by
  have hpq : (fun it => itemKeyMatches it p) = (fun it => itemKeyMatches it q) := by
    funext it
    simp [itemKeyMatches, hks, hke]
  have hAnyq : (upsertItem items p n1).any (fun it => itemKeyMatches it q) = true := by
    rw [← hpq]
    exact upsertItem_key_mem items p n1
  have hcq : (upsertItem items p n1).countP (fun it => itemKeyMatches it q) = 1 := by
    rw [← hpq]
    exact upsertItem_countP items p n1 hcount
  refine ⟨?_, ?_, ?_⟩
  · exact upsertItem_countP _ q n2 (by rw [hcq])
  · exact upsertItem_length _ q n2 hAnyq
  · intro it hmem hkey
    have hstep : ∀ l : List ItemRow, l.any (fun it => itemKeyMatches it q) = true →
        upsertItem l q n2
          = l.map (fun it =>
              if itemKeyMatches it q then
                { it with url := q.url, title := q.title, author := q.author,
                          content := it.content,
                          publishedAt :=
                            match q.publishedAt with
                            | some t => some t
                            | none => it.publishedAt,
                          metadata := jsonbConcat it.metadata q.metadata }
              else it) := by
      intro l hl
      unfold upsertItem
      rw [if_pos hl]
    rw [hstep _ hAnyq]
    refine ⟨_, List.mem_map_of_mem _ hmem, ?_⟩
    rw [if_pos hkey]
    refine ⟨rfl, rfl, rfl, rfl, rfl, rfl, ?_⟩
    intro k
    exact jsonLookup_jsonbConcat it.metadata q.metadata k

/-- Witness for C5 at a concrete stored row and two upserts with the
same key. -/
theorem idempotent_upsert_witness :
    ((upsertItem (upsertItem
        [{ id := 5, sourceId := 1, externalId := "e", url := "u0", title := "t0",
           author := "a0", content := some "body", publishedAt := none,
           metadata := [("k", .strVal "v0")] }]
        { sourceId := 1, externalId := "e", url := "u1", title := "t1",
          author := "a1", publishedAt := none, metadata := [] } 7)
        { sourceId := 1, externalId := "e", url := "u2", title := "t2",
          author := "a2", publishedAt := none, metadata := [("k", .strVal "v2")] }
        8).countP
      (fun it => itemKeyMatches it
        { sourceId := 1, externalId := "e", url := "u2", title := "t2",
          author := "a2", publishedAt := none,
          metadata := [("k", .strVal "v2")] }) = 1)
    ∧ ∃ it2 ∈ upsertItem (upsertItem
        [{ id := 5, sourceId := 1, externalId := "e", url := "u0", title := "t0",
           author := "a0", content := some "body", publishedAt := none,
           metadata := [("k", .strVal "v0")] }]
        { sourceId := 1, externalId := "e", url := "u1", title := "t1",
          author := "a1", publishedAt := none, metadata := [] } 7)
        { sourceId := 1, externalId := "e", url := "u2", title := "t2",
          author := "a2", publishedAt := none, metadata := [("k", .strVal "v2")] }
        8, it2.id = 5 ∧ it2.url = "u2" ∧ it2.content = some "body"
          ∧ jsonLookup it2.metadata "k" = some (.strVal "v2") := by
  have h := idempotent_upsert
    [{ id := 5, sourceId := 1, externalId := "e", url := "u0", title := "t0",
       author := "a0", content := some "body", publishedAt := none,
       metadata := [("k", .strVal "v0")] }]
    { sourceId := 1, externalId := "e", url := "u1", title := "t1",
      author := "a1", publishedAt := none, metadata := [] }
    { sourceId := 1, externalId := "e", url := "u2", title := "t2",
      author := "a2", publishedAt := none, metadata := [("k", .strVal "v2")] }
    7 8 rfl rfl (by decide)
  refine ⟨h.1, ?_⟩
  obtain ⟨it2, hmem, hid, hurl, _, _, hcontent, _, hlookup⟩ :=
    h.2.2 { id := 5, sourceId := 1, externalId := "e", url := "u1", title := "t1",
            author := "a1", content := some "body", publishedAt := none,
            metadata := [("k", .strVal "v0")] } (by decide) (by decide)
  refine ⟨it2, hmem, ?_, ?_, ?_, ?_⟩
  · rw [hid]
  · exact hurl
  · rw [hcontent]
  · rw [hlookup "k"]
    decide

/-! ## C6: all-exhausted fallback -/

/-- C7: a malformed payload, a payload without a valid integer item id,
and a job whose item id matches no Item row each raise a permanent
failure that `consume_one` nacks with requeue=false; a job whose detail
fetch raises completes as handled (acked), persisting the item with a
non-null `summary_error` metadata entry and adding no summary row. -/
theorem permanent_vs_transient (db : DbState) (id : Nat) (pm iso msg : String)
    (fetch : RedditFetch) :
    (redditProcessEarly (.malformed msg) fetch pm iso db
        = .done db (.failed ("Invalid message payload: " ++ msg) false)
      ∧ consumeOneAction (.failed ("Invalid message payload: " ++ msg) false)
        = .nackDrop)
    ∧ (redditProcessEarly .missingItemId fetch pm iso db
        = .done db (.failed "Message missing valid item_id" false)
      ∧ consumeOneAction (.failed "Message missing valid item_id" false)
        = .nackDrop)
    ∧ (db.items.any (fun it => it.id == id) = false →
        redditProcessEarly (.itemId id) fetch pm iso db
          = .done db (.failed ("Item " ++ toString id ++ " not found") false)
        ∧ consumeOneAction (.failed ("Item " ++ toString id ++ " not found") false)
          = .nackDrop)
    ∧ (db.items.any (fun it => it.id == id) = true →
        redditProcessEarly (.itemId id) (.raised msg) pm iso db
          = .done
              (updateItemWithSummaryLegacy db id none "" 0 pm iso
                (some ("Detail fetch failed: " ++ msg)) [])
              (.handled ("Detail fetch failed for item " ++ toString id))
        ∧ consumeOneAction (.handled ("Detail fetch failed for item " ++ toString id))
          = .ack
        ∧ (updateItemWithSummaryLegacy db id none "" 0 pm iso
            (some ("Detail fetch failed: " ++ msg)) []).summaries = db.summaries
        ∧ (∀ it ∈ (updateItemWithSummaryLegacy db id none "" 0 pm iso
            (some ("Detail fetch failed: " ++ msg)) []).items, it.id = id →
            jsonLookup it.metadata "summary_error"
              = some (.strVal ("Detail fetch failed: " ++ msg)))) := by
  have hne : ("Detail fetch failed: " ++ msg) ≠ "" := by
    intro hcontr
    have hlen := congrArg String.length hcontr
    rw [String.length_append] at hlen
    have h21 : ("Detail fetch failed: ").length = 21 := rfl
    have h0 : ("" : String).length = 0 := rfl
    omega
  refine ⟨⟨rfl, rfl⟩, ⟨rfl, rfl⟩, ?_, ?_⟩
  · intro h
    exact ⟨by simp [redditProcessEarly, h], rfl⟩
  · intro h
    refine ⟨by simp [redditProcessEarly, h], rfl, rfl, ?_⟩
    intro it hmem hid
    have hitems : (updateItemWithSummaryLegacy db id none "" 0 pm iso
        (some ("Detail fetch failed: " ++ msg)) []).items
        = db.items.map (fun it =>
            if it.id == id then
              { it with
                content := some "",
                metadata := jsonbConcat it.metadata
                  (summaryMetadataPatch "" 0 iso
                    (some ("Detail fetch failed: " ++ msg))) }
            else it) := by
      simp [updateItemWithSummaryLegacy]
    rw [hitems] at hmem
    obtain ⟨it0, hmem0, heq⟩ := List.mem_map.mp hmem
    by_cases h0 : (it0.id == id) = true
    · rw [if_pos h0] at heq
      rw [← heq, jsonLookup_jsonbConcat]
      simp [summaryMetadataPatch, jsonLookup, hne]
    · rw [if_neg h0] at heq
      rw [← heq] at hid
      exact absurd (by simp [hid]) h0

/-- Witness for C7 at concrete payloads, database states and a failing
fetch. -/
theorem permanent_vs_transient_witness :
    (redditProcessEarly (.malformed "bad json") .missing "m" "t"
        { items := [], comments := [], assets := [], summaries := [] }
      = .done { items := [], comments := [], assets := [], summaries := [] }
          (.failed "Invalid message payload: bad json" false))
    ∧ consumeOneAction (.failed "Invalid message payload: bad json" false)
      = .nackDrop
    ∧ (redditProcessEarly (.itemId 3) .missing "m" "t"
        { items := [], comments := [], assets := [], summaries := [] }
      = .done { items := [], comments := [], assets := [], summaries := [] }
          (.failed "Item 3 not found" false))
    ∧ (redditProcessEarly (.itemId 1) (.raised "boom") "m" "t"
        { items := [{ id := 1, sourceId := 1, externalId := "e", url := "u",
                      title := "t", author := "a", content := some "body",
                      publishedAt := none, metadata := [] }],
          comments := [], assets := [], summaries := [] }
      = .done
          (updateItemWithSummaryLegacy
            { items := [{ id := 1, sourceId := 1, externalId := "e", url := "u",
                          title := "t", author := "a", content := some "body",
                          publishedAt := none, metadata := [] }],
              comments := [], assets := [], summaries := [] }
            1 none "" 0 "m" "t" (some "Detail fetch failed: boom") [])
          (.handled "Detail fetch failed for item 1"))
    ∧ consumeOneAction (.handled "Detail fetch failed for item 1") = .ack :=
  ⟨(permanent_vs_transient
      { items := [], comments := [], assets := [], summaries := [] }
      3 "m" "t" "bad json" .missing).1.1,
   (permanent_vs_transient
      { items := [], comments := [], assets := [], summaries := [] }
      3 "m" "t" "bad json" .missing).1.2,
   ((permanent_vs_transient
      { items := [], comments := [], assets := [], summaries := [] }
      3 "m" "t" "bad json" .missing).2.2.1 (by decide)).1,
   ((permanent_vs_transient
      { items := [{ id := 1, sourceId := 1, externalId := "e", url := "u",
                    title := "t", author := "a", content := some "body",
                    publishedAt := none, metadata := [] }],
        comments := [], assets := [], summaries := [] }
      1 "m" "t" "boom" .missing).2.2.2 (by decide)).1,
   ((permanent_vs_transient
      { items := [{ id := 1, sourceId := 1, externalId := "e", url := "u",
                    title := "t", author := "a", content := some "body",
                    publishedAt := none, metadata := [] }],
        comments := [], assets := [], summaries := [] }
      1 "m" "t" "boom" .missing).2.2.2 (by decide)).2.1⟩

/-! ## C10: frame effect of the failure-marker persistence -/

/-- C10: the detail-fetch failure, missing-post and Reddit video-skip
paths all invoke `update_item_with_summary` with summary=None and
raw_text=""; that call unconditionally overwrites the item content with
the empty string (discarding any stored body), merges the error into the
item metadata, inserts no summary row, and leaves every comment row,
asset row, summary row and every other item row untouched. -/
theorem failure_marker_frame (db : DbState) (id : Nat) (pm iso err msg : String)
    (post : RedditPost)
    (hItem : db.items.any (fun it => it.id == id) = true)
    (herr : err ≠ "") :
    (redditProcessEarly (.itemId id) (.raised msg) pm iso db
      = .done
          (updateItemWithSummaryLegacy db id none "" 0 pm iso
            (some ("Detail fetch failed: " ++ msg)) [])
          (.handled ("Detail fetch failed for item " ++ toString id)))
    ∧ (redditProcessEarly (.itemId id) .missing pm iso db
      = .done
          (updateItemWithSummaryLegacy db id none "" 0 pm iso
            (some "Reddit post not found") [])
          (.handled ("Missing post for item " ++ toString id)))
    ∧ ((post.isVideo || containsVideoUrl post.mediaUrls) = true →
        redditProcessEarly (.itemId id) (.fetched post) pm iso db
          = .done
              (updateItemWithSummaryLegacy db id none "" 0 pm iso
                (some "Skipped video post") [])
              (.handled ("Skipped video post " ++ toString id)))
    ∧ (updateItemWithSummaryLegacy db id none "" 0 pm iso (some err) []).summaries
        = db.summaries
    ∧ (updateItemWithSummaryLegacy db id none "" 0 pm iso (some err) []).comments
        = db.comments
    ∧ (updateItemWithSummaryLegacy db id none "" 0 pm iso (some err) []).assets
        = db.assets
    ∧ (∀ it ∈ (updateItemWithSummaryLegacy db id none "" 0 pm iso (some err) []).items,
        it.id = id →
          it.content = some ""
          ∧ jsonLookup it.metadata "summary_error" = some (.strVal err))
    ∧ (∀ it ∈ db.items, it.id ≠ id →
        it ∈ (updateItemWithSummaryLegacy db id none "" 0 pm iso (some err) []).items) := by
  have hitems : (updateItemWithSummaryLegacy db id none "" 0 pm iso (some err) []).items
      = db.items.map (fun it =>
          if it.id == id then
            { it with
              content := some "",
              metadata := jsonbConcat it.metadata
                (summaryMetadataPatch "" 0 iso (some err)) }
          else it) := by
    simp [updateItemWithSummaryLegacy]
  refine ⟨by simp [redditProcessEarly, hItem], by simp [redditProcessEarly, hItem],
    ?_, rfl, rfl, rfl, ?_, ?_⟩
  · intro hVid
    simp [redditProcessEarly, hItem, hVid]
  · intro it hmem hid
    rw [hitems] at hmem
    obtain ⟨it0, hmem0, heq⟩ := List.mem_map.mp hmem
    by_cases h0 : (it0.id == id) = true
    · rw [if_pos h0] at heq
      refine ⟨by rw [← heq], ?_⟩
      rw [← heq, jsonLookup_jsonbConcat]
      simp [summaryMetadataPatch, jsonLookup, herr]
    · rw [if_neg h0] at heq
      rw [← heq] at hid
      exact absurd (by simp [hid]) h0
  · intro it hmem hid
    rw [hitems]
    have himg : (fun it : ItemRow =>
        if it.id == id then
          { it with
            content := some "",
            metadata := jsonbConcat it.metadata
              (summaryMetadataPatch "" 0 iso (some err)) }
        else it) it = it := by
      simp [hid]
    rw [← himg]
    exact List.mem_map_of_mem _ hmem

/-- Witness for C10 at a concrete item with stored body text and a
video post. -/
theorem failure_marker_frame_witness :
    (redditProcessEarly (.itemId 1) (.fetched
        { externalId := "e", url := "u", isVideo := false,
          mediaUrls := ["https://v.redd.it/clip.mp4"], comments := [] })
        "m" "t"
        { items := [{ id := 1, sourceId := 1, externalId := "e", url := "u",
                      title := "t", author := "a", content := some "stored body",
                      publishedAt := none, metadata := [("k", .strVal "v")] }],
          comments := [], assets := [], summaries := [] }
      = .done
          (updateItemWithSummaryLegacy
            { items := [{ id := 1, sourceId := 1, externalId := "e", url := "u",
                          title := "t", author := "a", content := some "stored body",
                          publishedAt := none, metadata := [("k", .strVal "v")] }],
              comments := [], assets := [], summaries := [] }
            1 none "" 0 "m" "t" (some "Skipped video post") [])
          (.handled "Skipped video post 1"))
    ∧ (updateItemWithSummaryLegacy
        { items := [{ id := 1, sourceId := 1, externalId := "e", url := "u",
                      title := "t", author := "a", content := some "stored body",
                      publishedAt := none, metadata := [("k", .strVal "v")] }],
          comments := [], assets := [], summaries := [] }
        1 none "" 0 "m" "t" (some "boom") []).summaries = [] := by
  have h := failure_marker_frame
    { items := [{ id := 1, sourceId := 1, externalId := "e", url := "u",
                  title := "t", author := "a", content := some "stored body",
                  publishedAt := none, metadata := [("k", .strVal "v")] }],
      comments := [], assets := [], summaries := [] }
    1 "m" "t" "boom" "m"
    { externalId := "e", url := "u", isVideo := false,
      mediaUrls := ["https://v.redd.it/clip.mp4"], comments := [] }
    (by decide) (by decide)
  exact ⟨h.2.2.1 (by decide), h.2.2.2.1⟩

/-! ## C9: linearizer depth and label invariants -/

theorem linearize_foldl (render : RawComment → String → String)
    (cs : List RawComment) (acc : List String) :
    cs.foldl (fun lines c =>
        let content := strippedContent c
        if content = "" then lines else lines ++ [render c content]) acc
      = acc ++ cs.filterMap (fun c =>
          let content := strippedContent c
          if content = "" then none else some (render c content)) := by
  induction cs generalizing acc with
  | nil => simp
  | cons c rest ih =>
    simp only [List.foldl_cons, List.filterMap_cons]
    by_cases h : strippedContent c = ""
    · simp only [h, if_pos rfl]
      simp [h, ih]
    · simp [h, ih, List.append_assoc]

theorem claimRenderLine_eq_dc (lookup : List (String × String)) (c : RawComment)
    (h : 0 ≤ metaDepth c.metadata) :
    (let content := strippedContent c
     if content = "" then none else some (dcLine lookup c content))
      = claimRenderLine lookup false c := by
  by_cases hc : strippedContent c = ""
  · simp [hc, claimRenderLine]
  · have hmax : max (metaDepth c.metadata) 0 = metaDepth c.metadata := max_eq_left h
    by_cases hd : metaDepth c.metadata = 0
    · simp [hc, claimRenderLine, dcLine, indentFor, hd]
    · have hpos : ¬(metaDepth c.metadata ≤ 0) := by omega
      cases hp : c.parentExternalId with
      | none => simp [hc, claimRenderLine, dcLine, indentFor, hd, hpos, hp, hmax]
      | some p =>
        cases hl : dictLookup lookup p with
        | none => simp [hc, claimRenderLine, dcLine, indentFor, hd, hpos, hp, hl, hmax]
        | some pa => simp [hc, claimRenderLine, dcLine, indentFor, hd, hpos, hp, hl, hmax]

theorem claimRenderLine_eq_reddit (lookup : List (String × String)) (c : RawComment)
    (h : 0 ≤ metaDepth c.metadata) :
    (let content := strippedContent c
     if content = "" then none else some (redditLine lookup c content))
      = claimRenderLine lookup true c := by
  by_cases hc : strippedContent c = ""
  · simp [hc, claimRenderLine]
  · have hmax : max (metaDepth c.metadata) 0 = metaDepth c.metadata := max_eq_left h
    by_cases hd : metaDepth c.metadata = 0
    · simp [hc, claimRenderLine, redditLine, indentFor, hd]
    · have hpos : ¬(metaDepth c.metadata ≤ 0) := by omega
      cases hp : c.parentExternalId with
      | none => simp [hc, claimRenderLine, redditLine, indentFor, hd, hpos, hp, hmax]
      | some p =>
        cases hl : dictLookup lookup p with
        | none =>
          simp [hc, claimRenderLine, redditLine, indentFor, hd, hpos, hp, hl, hmax]
        | some pa =>
          simp [hc, claimRenderLine, redditLine, indentFor, hd, hpos, hp, hl, hmax]

/-- C9: when all depths are non-negative both thread linearizers render
exactly one line per non-empty-content comment in input order, with one
two-space unit of indentation per depth level; a depth-0 comment gets
the root label, a deeper comment whose parent external id resolves in
the batch gets the reply label naming the parent author, and a deeper
comment with an unresolvable parent gets the generic reply label —
stated as equality with the claim-side linearizers. -/
theorem linearizer_labels (cs : List RawComment)
    (hdepth : ∀ c ∈ cs, 0 ≤ metaDepth c.metadata) :
    formatCommentsForSummary cs = linearizeClaimDc cs
    ∧ commentsForSummary cs = linearizeClaimReddit cs := by
  constructor
  · unfold formatCommentsForSummary linearizeClaimDc
    rw [linearize_foldl]
    rw [List.nil_append]
    exact List.filterMap_congr
      (fun c hc => claimRenderLine_eq_dc (idToAuthorDc cs) c (hdepth c hc))
  · unfold commentsForSummary linearizeClaimReddit
    rw [linearize_foldl]
    rw [List.nil_append]
    exact List.filterMap_congr
      (fun c hc => claimRenderLine_eq_reddit (idToAuthorReddit cs) c (hdepth c hc))

/-- Witness for C9 on the three-comment batch of the claim: a root, a
reply to it, and a reply whose parent is absent. -/
theorem linearizer_labels_witness :
    formatCommentsForSummary
        [{ externalId := some "a", idAlt := none, author := some "alice",
           userAlt := none, content := some "hello", bodyAlt := none,
           createdAt := none, isDeleted := false, parentExternalId := none,
           parentIdAlt := none, score := none,
           metadata := [("depth", .intVal 0)] },
         { externalId := some "b", idAlt := none, author := some "bob",
           userAlt := none, content := some "hi", bodyAlt := none,
           createdAt := none, isDeleted := false, parentExternalId := some "a",
           parentIdAlt := none, score := none,
           metadata := [("depth", .intVal 1)] },
         { externalId := some "c", idAlt := none, author := some "carol",
           userAlt := none, content := some "yo", bodyAlt := none,
           createdAt := none, isDeleted := false, parentExternalId := some "zz",
           parentIdAlt := none, score := none,
           metadata := [("depth", .intVal 1)] }]
      = linearizeClaimDc
          [{ externalId := some "a", idAlt := none, author := some "alice",
             userAlt := none, content := some "hello", bodyAlt := none,
             createdAt := none, isDeleted := false, parentExternalId := none,
             parentIdAlt := none, score := none,
             metadata := [("depth", .intVal 0)] },
           { externalId := some "b", idAlt := none, author := some "bob",
             userAlt := none, content := some "hi", bodyAlt := none,
             createdAt := none, isDeleted := false, parentExternalId := some "a",
             parentIdAlt := none, score := none,
             metadata := [("depth", .intVal 1)] },
           { externalId := some "c", idAlt := none, author := some "carol",
             userAlt := none, content := some "yo", bodyAlt := none,
             createdAt := none, isDeleted := false, parentExternalId := some "zz",
             parentIdAlt := none, score := none,
             metadata := [("depth", .intVal 1)] }]
    ∧ formatCommentsForSummary
        [{ externalId := some "a", idAlt := none, author := some "alice",
           userAlt := none, content := some "hello", bodyAlt := none,
           createdAt := none, isDeleted := false, parentExternalId := none,
           parentIdAlt := none, score := none,
           metadata := [("depth", .intVal 0)] },
         { externalId := some "b", idAlt := none, author := some "bob",
           userAlt := none, content := some "hi", bodyAlt := none,
           createdAt := none, isDeleted := false, parentExternalId := some "a",
           parentIdAlt := none, score := none,
           metadata := [("depth", .intVal 1)] },
         { externalId := some "c", idAlt := none, author := some "carol",
           userAlt := none, content := some "yo", bodyAlt := none,
           createdAt := none, isDeleted := false, parentExternalId := some "zz",
           parentIdAlt := none, score := none,
           metadata := [("depth", .intVal 1)] }]
      = ["[원댓글] alice: hello", "  [대댓글 → alice] bob: hi",
         "  [대댓글] carol: yo"] :=
  ⟨(linearizer_labels
      [{ externalId := some "a", idAlt := none, author := some "alice",
         userAlt := none, content := some "hello", bodyAlt := none,
         createdAt := none, isDeleted := false, parentExternalId := none,
         parentIdAlt := none, score := none,
         metadata := [("depth", .intVal 0)] },
       { externalId := some "b", idAlt := none, author := some "bob",
         userAlt := none, content := some "hi", bodyAlt := none,
         createdAt := none, isDeleted := false, parentExternalId := some "a",
         parentIdAlt := none, score := none,
         metadata := [("depth", .intVal 1)] },
       { externalId := some "c", idAlt := none, author := some "carol",
         userAlt := none, content := some "yo", bodyAlt := none,
         createdAt := none, isDeleted := false, parentExternalId := some "zz",
         parentIdAlt := none, score := none,
         metadata := [("depth", .intVal 1)] }] (by decide)).1,
   by decide⟩

/-! ## C8: comment replacement, orphan parents -/

theorem dictLookupNat_eq_none (l : List (String × Nat)) (k : String)
    (h : k ∉ l.map Prod.fst) : dictLookupNat l k = none := by
  unfold dictLookupNat
  cases hf : l.reverse.find? (fun p => p.1 == k) with
  | none => rfl
  | some pr =>
    have hmem := List.mem_of_find?_eq_some hf
    have hkey : (pr.1 == k) = true := List.find?_some (p := fun q : String × Nat => q.1 == k) hf
    rw [List.mem_reverse] at hmem
    rw [beq_iff_eq] at hkey
    exact absurd (hkey ▸ List.mem_map_of_mem Prod.fst hmem) h

theorem dictLookupNat_mem_values (l : List (String × Nat)) (k : String) (v : Nat)
    (h : dictLookupNat l k = some v) : v ∈ l.map Prod.snd := by
  unfold dictLookupNat at h
  cases hf : l.reverse.find? (fun p => p.1 == k) with
  | none => rw [hf] at h; cases h
  | some pr =>
    rw [hf] at h
    have hv : pr.2 = v := by injection h
    have hmem := List.mem_of_find?_eq_some hf
    rw [List.mem_reverse] at hmem
    exact hv ▸ List.mem_map_of_mem Prod.snd hmem

theorem eidsOf_cons (raw : RawComment) (rest : List RawComment) :
    eidsOf (raw :: rest)
      = if dbExternalId raw = "" then eidsOf rest
        else dbExternalId raw :: eidsOf rest := by
  by_cases h : dbExternalId raw = "" <;> simp [eidsOf, h]

theorem mem_eidsOf (raws : List RawComment) (raw : RawComment)
    (hmem : raw ∈ raws) (hne : dbExternalId raw ≠ "") :
    dbExternalId raw ∈ eidsOf raws := by
  unfold eidsOf
  exact List.mem_filterMap.mpr ⟨raw, hmem, by simp [hne]⟩

theorem pendingOf_key_mem (raws : List RawComment) (e p : String)
    (h : (e, p) ∈ pendingOf raws) : e ∈ eidsOf raws := by
  induction raws with
  | nil => cases h
  | cons raw rest ih =>
    rw [pendingOf] at h
    rw [eidsOf_cons]
    by_cases he : dbExternalId raw = ""
    · rw [if_pos he] at h
      rw [if_pos he]
      exact ih h
    · rw [if_neg he] at h
      rw [if_neg he]
      cases hd : declaredParent raw with
      | some p0 =>
        rw [hd] at h
        rcases List.mem_cons.mp h with hh | ht
        · injection hh with h1 _
          rw [h1]
          exact List.mem_cons_self _ _
        · exact List.mem_cons_of_mem _ (ih ht)
      | none =>
        rw [hd] at h
        exact List.mem_cons_of_mem _ (ih h)

theorem rowsOf_props (itemId : Nat) (raws : List RawComment) :
    ∀ n, ∀ row ∈ rowsOf itemId raws n,
      row.itemId = itemId ∧ row.parentId = none
        ∧ row.externalId ∈ eidsOf raws := by
  induction raws with
  | nil => intro n row h; cases h
  | cons raw rest ih =>
    intro n row h
    rw [rowsOf] at h
    rw [eidsOf_cons]
    by_cases he : dbExternalId raw = ""
    · rw [if_pos he] at h
      rw [if_pos he]
      exact ih n row h
    · rw [if_neg he] at h
      rw [if_neg he]
      rcases List.mem_cons.mp h with hh | ht
      · subst hh
        exact ⟨rfl, rfl, List.mem_cons_self _ _⟩
      · obtain ⟨h1, h2, h3⟩ := ih (n + 1) row ht
        exact ⟨h1, h2, List.mem_cons_of_mem _ h3⟩

theorem rowsOf_exists (itemId : Nat) (raws : List RawComment)
    (raw : RawComment) (hmem : raw ∈ raws) (hne : dbExternalId raw ≠ "") :
    ∀ n, ∃ row ∈ rowsOf itemId raws n, row.externalId = dbExternalId raw := by
  induction raws with
  | nil => cases hmem
  | cons raw0 rest ih =>
    intro n
    rw [rowsOf]
    rcases List.mem_cons.mp hmem with hh | ht
    · subst hh
      rw [if_neg hne]
      exact ⟨mkCommentRow itemId n raw, List.mem_cons_self _ _, rfl⟩
    · by_cases he : dbExternalId raw0 = ""
      · rw [if_pos he]
        exact ih ht n
      · rw [if_neg he]
        obtain ⟨row, hr, hre⟩ := ih ht (n + 1)
        exact ⟨row, List.mem_cons_of_mem _ hr, hre⟩

theorem idsOf_keys (raws : List RawComment) :
    ∀ n, (idsOf raws n).map Prod.fst = eidsOf raws := by
  induction raws with
  | nil => intro n; rfl
  | cons raw rest ih =>
    intro n
    rw [idsOf, eidsOf_cons]
    by_cases he : dbExternalId raw = ""
    · rw [if_pos he, if_pos he]
      exact ih n
    · rw [if_neg he, if_neg he, List.map_cons, ih (n + 1)]

theorem idsOf_values_to_rows (itemId : Nat) (raws : List RawComment) :
    ∀ n e v, (e, v) ∈ idsOf raws n →
      ∃ row ∈ rowsOf itemId raws n, row.id = v ∧ row.itemId = itemId := by
  induction raws with
  | nil => intro n e v h; cases h
  | cons raw rest ih =>
    intro n e v h
    rw [idsOf] at h
    rw [rowsOf]
    by_cases he : dbExternalId raw = ""
    · rw [if_pos he] at h
      rw [if_pos he]
      exact ih n e v h
    · rw [if_neg he] at h
      rw [if_neg he]
      rcases List.mem_cons.mp h with hh | ht
      · refine ⟨mkCommentRow itemId n raw, List.mem_cons_self _ _, ?_, rfl⟩
        injection hh with _ h2
        exact h2.symm
      · obtain ⟨row, hr, h1, h2⟩ := ih (n + 1) e v ht
        exact ⟨row, List.mem_cons_of_mem _ hr, h1, h2⟩

theorem insertCommentsPass_char (itemId : Nat) :
    ∀ (raws : List RawComment) (n : Nat) (rows : List CommentRow)
      (ids : List (String × Nat)) (pending : List (String × String)),
      (ids.map Prod.fst ++ eidsOf raws).Nodup →
      insertCommentsPass itemId raws n rows ids pending
        = some (rows ++ rowsOf itemId raws n, ids ++ idsOf raws n,
                pending ++ pendingOf raws) := by
  intro raws
  induction raws with
  | nil =>
    intro n rows ids pending _h
    simp [insertCommentsPass, rowsOf, idsOf, pendingOf]
  | cons raw rest ih =>
    intro n rows ids pending h
    rw [insertCommentsPass]
    by_cases he : dbExternalId raw = ""
    · rw [if_pos he]
      rw [rowsOf, idsOf, pendingOf, if_pos he, if_pos he, if_pos he]
      refine ih n rows ids pending ?_
      rwa [eidsOf_cons, if_pos he] at h
    · rw [if_neg he]
      have hnd : (ids.map Prod.fst ++ dbExternalId raw :: eidsOf rest).Nodup := by
        rwa [eidsOf_cons, if_neg he] at h
      have hnotin : dbExternalId raw ∉ ids.map Prod.fst := by
        rw [List.nodup_append] at hnd
        intro hc
        exact hnd.2.2 hc (List.mem_cons_self _ _)
      have hdup : ids.any (fun p => p.1 == dbExternalId raw) = false := by
        rw [← Bool.not_eq_true, List.any_eq_true]
        rintro ⟨p, hp, hpk⟩
        rw [beq_iff_eq] at hpk
        exact hnotin (hpk ▸ List.mem_map_of_mem Prod.fst hp)
      rw [if_neg (by rw [hdup]; exact Bool.false_ne_true)]
      have hnd' : (((ids ++ [(dbExternalId raw, n)]).map Prod.fst)
          ++ eidsOf rest).Nodup := by
        rw [List.map_append]
        simp only [List.map_cons, List.map_nil]
        rw [List.append_assoc]
        exact hnd
      rw [rowsOf, idsOf, pendingOf, if_neg he, if_neg he, if_neg he]
      cases hd : declaredParent raw with
      | some p =>
        rw [ih (n + 1) (rows ++ [mkCommentRow itemId n raw])
          (ids ++ [(dbExternalId raw, n)]) (pending ++ [(dbExternalId raw, p)]) hnd']
        simp
      | none =>
        rw [ih (n + 1) (rows ++ [mkCommentRow itemId n raw])
          (ids ++ [(dbExternalId raw, n)]) pending hnd']
        simp

theorem applyParentLinks_map (ids : List (String × Nat)) :
    ∀ (pending : List (String × String)) (rows : List CommentRow),
      applyParentLinks rows ids pending
        = rows.map (fun r => applyPendingToRow ids r pending) := by
  intro pending
  induction pending with
  | nil =>
    intro rows
    simp [applyParentLinks, applyPendingToRow]
  | cons ep rest ih =>
    intro rows
    obtain ⟨eid, pext⟩ := ep
    cases hl : dictLookupNat ids pext with
    | none =>
      simp only [applyParentLinks, hl]
      rw [ih rows]
      apply List.map_congr_left
      intro r _
      simp only [applyPendingToRow, hl]
    | some pid =>
      by_cases hz : pid = 0
      · simp only [applyParentLinks, hl, if_pos hz]
        rw [ih rows]
        apply List.map_congr_left
        intro r _
        simp only [applyPendingToRow, hl, if_pos hz]
      · simp only [applyParentLinks, hl, if_neg hz]
        rw [ih, List.map_map]
        apply List.map_congr_left
        intro r _
        simp only [Function.comp_apply, applyPendingToRow, hl, if_neg hz]

theorem applyPendingToRow_fields (ids : List (String × Nat)) :
    ∀ (pending : List (String × String)) (r : CommentRow),
      (applyPendingToRow ids r pending).id = r.id
      ∧ (applyPendingToRow ids r pending).itemId = r.itemId
      ∧ (applyPendingToRow ids r pending).externalId = r.externalId
      ∧ (applyPendingToRow ids r pending).metadata = r.metadata := by
  intro pending
  induction pending with
  | nil =>
    intro r
    exact ⟨rfl, rfl, rfl, rfl⟩
  | cons ep rest ih =>
    intro r
    obtain ⟨eid, pext⟩ := ep
    cases hl : dictLookupNat ids pext with
    | none =>
      simp only [applyPendingToRow, hl]
      exact ih r
    | some pid =>
      by_cases hz : pid = 0
      · simp only [applyPendingToRow, hl, if_pos hz]
        exact ih r
      · by_cases he : (r.externalId == eid) = true
        · simp only [applyPendingToRow, hl, if_neg hz, if_pos he]
          obtain ⟨h1, h2, h3, h4⟩ := ih { r with parentId := some pid }
          exact ⟨h1, h2, h3, h4⟩
        · simp only [applyPendingToRow, hl, if_neg hz, if_neg he]
          exact ih r

theorem applyPendingToRow_parent_none (ids : List (String × Nat)) :
    ∀ (pending : List (String × String)) (r : CommentRow),
      r.parentId = none →
      (∀ e p, (e, p) ∈ pending → e = r.externalId → dictLookupNat ids p = none) →
      (applyPendingToRow ids r pending).parentId = none := by
  intro pending
  induction pending with
  | nil =>
    intro r h _
    exact h
  | cons ep rest ih =>
    intro r h hp
    obtain ⟨eid, pext⟩ := ep
    cases hl : dictLookupNat ids pext with
    | none =>
      simp only [applyPendingToRow, hl]
      exact ih r h (fun e p hm => hp e p (List.mem_cons_of_mem _ hm))
    | some pid =>
      by_cases hz : pid = 0
      · simp only [applyPendingToRow, hl, if_pos hz]
        exact ih r h (fun e p hm => hp e p (List.mem_cons_of_mem _ hm))
      · by_cases he : (r.externalId == eid) = true
        · rw [beq_iff_eq] at he
          have := hp eid pext (List.mem_cons_self _ _) he.symm
          rw [hl] at this
          cases this
        · simp only [applyPendingToRow, hl, if_neg hz, if_neg he]
          exact ih r h (fun e p hm => hp e p (List.mem_cons_of_mem _ hm))

theorem applyPendingToRow_parent_mem (ids : List (String × Nat)) :
    ∀ (pending : List (String × String)) (r : CommentRow) (pid : Nat),
      (applyPendingToRow ids r pending).parentId = some pid →
      r.parentId = some pid ∨ pid ∈ ids.map Prod.snd := by
  intro pending
  induction pending with
  | nil =>
    intro r pid h
    exact Or.inl h
  | cons ep rest ih =>
    intro r pid h
    obtain ⟨eid, pext⟩ := ep
    cases hl : dictLookupNat ids pext with
    | none =>
      simp only [applyPendingToRow, hl] at h
      exact ih r pid h
    | some q =>
      by_cases hz : q = 0
      · simp only [applyPendingToRow, hl, if_pos hz] at h
        exact ih r pid h
      · by_cases he : (r.externalId == eid) = true
        · simp only [applyPendingToRow, hl, if_neg hz, if_pos he] at h
          rcases ih _ pid h with h1 | h2
          · have hq : q = pid := by injection h1
            exact Or.inr (hq ▸ dictLookupNat_mem_values ids pext q hl)
          · exact Or.inr h2
        · simp only [applyPendingToRow, hl, if_neg hz, if_neg he] at h
          exact ih r pid h

theorem rowsOf_metadata_of_eid (itemId : Nat) (raws : List RawComment)
    (hnd : (eidsOf raws).Nodup) (raw : RawComment) (hmem : raw ∈ raws)
    (hne : dbExternalId raw ≠ "") :
    (∀ n, ∀ row ∈ rowsOf itemId raws n, row.externalId = dbExternalId raw →
      row.metadata = raw.metadata)
    ∧ (∀ p, (dbExternalId raw, p) ∈ pendingOf raws → declaredParent raw = some p) := by
  induction raws with
  | nil => cases hmem
  | cons raw0 rest ih =>
    rcases List.mem_cons.mp hmem with rfl | ht
    · have hnd' : (dbExternalId raw :: eidsOf rest).Nodup := by
        rwa [eidsOf_cons, if_neg hne] at hnd
      have hnotin : dbExternalId raw ∉ eidsOf rest := (List.nodup_cons.mp hnd').1
      constructor
      · intro n row hrow hre
        rw [rowsOf, if_neg hne] at hrow
        rcases List.mem_cons.mp hrow with h1 | h2
        · rw [h1]
          exact rfl
        · obtain ⟨_, _, h3⟩ := rowsOf_props itemId rest (n + 1) row h2
          rw [hre] at h3
          exact absurd h3 hnotin
      · intro p hp
        rw [pendingOf, if_neg hne] at hp
        cases hd : declaredParent raw with
        | some p0 =>
          rw [hd] at hp
          rcases List.mem_cons.mp hp with h1 | h2
          · injection h1 with _ h1b
            rw [h1b]
          · exact absurd (pendingOf_key_mem rest _ _ h2) hnotin
        | none =>
          rw [hd] at hp
          exact absurd (pendingOf_key_mem rest _ _ hp) hnotin
    · by_cases he0 : dbExternalId raw0 = ""
      · have hnd' : (eidsOf rest).Nodup := by
          rwa [eidsOf_cons, if_pos he0] at hnd
        obtain ⟨ihm, ihp⟩ := ih hnd' ht
        constructor
        · intro n row hrow hre
          rw [rowsOf, if_pos he0] at hrow
          exact ihm n row hrow hre
        · intro p hp
          rw [pendingOf, if_pos he0] at hp
          exact ihp p hp
      · have hnd' : (dbExternalId raw0 :: eidsOf rest).Nodup := by
          rwa [eidsOf_cons, if_neg he0] at hnd
        have hhead : dbExternalId raw0 ∉ eidsOf rest := (List.nodup_cons.mp hnd').1
        have htail : (eidsOf rest).Nodup := (List.nodup_cons.mp hnd').2
        have hne0 : dbExternalId raw0 ≠ dbExternalId raw := by
          intro hcontr
          exact absurd (hcontr ▸ mem_eidsOf rest raw ht hne) hhead
        obtain ⟨ihm, ihp⟩ := ih htail ht
        constructor
        · intro n row hrow hre
          rw [rowsOf, if_neg he0] at hrow
          rcases List.mem_cons.mp hrow with h1 | h2
          · rw [h1] at hre
            exact absurd hre hne0
          · exact ihm (n + 1) row h2 hre
        · intro p hp
          rw [pendingOf, if_neg he0] at hp
          cases hd : declaredParent raw0 with
          | some p0 =>
            rw [hd] at hp
            rcases List.mem_cons.mp hp with h1 | h2
            · injection h1 with h1a _
              exact absurd h1a.symm hne0
            · exact ihp p h2
          | none =>
            rw [hd] at hp
            exact ihp p hp

/-- C8: with distinct derived external ids in the batch,
`replace_item_comments` never fails: every kept comment is inserted, a
comment whose declared parent external id matches no id in the batch is
persisted as a root (parent reference null) with its source metadata —
depth included — kept verbatim, every persisted row belongs to the
item, and every non-null parent reference resolves to a row inserted in
the same call for the same item. -/
theorem orphan_parent_handling (db : DbState) (itemId nextId : Nat)
    (raws : List RawComment) (hnd : (eidsOf raws).Nodup) :
    ∃ rows ids pending,
      insertCommentsPass itemId raws nextId [] [] [] = some (rows, ids, pending)
      ∧ replaceItemComments db itemId raws nextId
          = some { db with comments :=
              db.comments.filter (fun c => c.itemId ≠ itemId)
                ++ applyParentLinks rows ids pending }
      ∧ (∀ raw ∈ raws, dbExternalId raw ≠ "" →
          ∀ p, declaredParent raw = some p → p ∉ eidsOf raws →
            ∃ row ∈ applyParentLinks rows ids pending,
              row.externalId = dbExternalId raw ∧ row.parentId = none
              ∧ row.metadata = raw.metadata)
      ∧ (∀ row ∈ applyParentLinks rows ids pending, row.itemId = itemId)
      ∧ (∀ row ∈ applyParentLinks rows ids pending, ∀ pid,
          row.parentId = some pid →
            ∃ row2 ∈ applyParentLinks rows ids pending,
              row2.id = pid ∧ row2.itemId = itemId) := by
  have hchar := insertCommentsPass_char itemId raws nextId [] [] []
    (by simpa using hnd)
  refine ⟨rowsOf itemId raws nextId, idsOf raws nextId, pendingOf raws,
    ?_, ?_, ?_, ?_, ?_⟩
  · simpa using hchar
  · simp only [replaceItemComments, hchar, List.nil_append]
  · intro raw hmem hne p hd hnot
    obtain ⟨row0, hrow0, hre⟩ := rowsOf_exists itemId raws raw hmem hne nextId
    rw [applyParentLinks_map]
    have hfields := applyPendingToRow_fields (idsOf raws nextId) (pendingOf raws) row0
    refine ⟨applyPendingToRow (idsOf raws nextId) row0 (pendingOf raws),
      List.mem_map_of_mem _ hrow0, ?_, ?_, ?_⟩
    · rw [hfields.2.2.1, hre]
    · obtain ⟨_, hpn, _⟩ := rowsOf_props itemId raws nextId row0 hrow0
      refine applyPendingToRow_parent_none _ _ _ hpn ?_
      intro e p' hp' heq
      have he' : e = dbExternalId raw := by rw [heq, hre]
      subst he'
      have hdp : declaredParent raw = some p' :=
        (rowsOf_metadata_of_eid itemId raws hnd raw hmem hne).2 p' hp'
      have hpp : p' = p := by
        rw [hdp] at hd
        injection hd
      refine dictLookupNat_eq_none _ _ ?_
      rw [idsOf_keys raws nextId, hpp]
      exact hnot
    · rw [hfields.2.2.2]
      exact (rowsOf_metadata_of_eid itemId raws hnd raw hmem hne).1 nextId row0
        hrow0 hre
  · intro row hrow
    rw [applyParentLinks_map] at hrow
    obtain ⟨row0, hrow0, rfl⟩ := List.mem_map.mp hrow
    rw [(applyPendingToRow_fields _ _ row0).2.1]
    exact (rowsOf_props itemId raws nextId row0 hrow0).1
  · intro row hrow pid hpid
    rw [applyParentLinks_map] at hrow
    obtain ⟨row0, hrow0, rfl⟩ := List.mem_map.mp hrow
    rcases applyPendingToRow_parent_mem _ _ row0 pid hpid with h1 | h2
    · obtain ⟨_, hpn, _⟩ := rowsOf_props itemId raws nextId row0 hrow0
      rw [hpn] at h1
      cases h1
    · obtain ⟨pr, hpr, hprs⟩ := List.mem_map.mp h2
      obtain ⟨e0, v0⟩ := pr
      obtain ⟨row2, hrow2, hid2, hitem2⟩ :=
        idsOf_values_to_rows itemId raws nextId e0 v0 hpr
      rw [applyParentLinks_map]
      refine ⟨applyPendingToRow (idsOf raws nextId) row2 (pendingOf raws),
        List.mem_map_of_mem _ hrow2, ?_, ?_⟩
      · rw [(applyPendingToRow_fields _ _ row2).1, hid2]
        exact hprs
      · rw [(applyPendingToRow_fields _ _ row2).2.1]
        exact hitem2

/-- Witness for C8 on a concrete three-comment batch whose third comment
declares an absent parent: the replace succeeds and the orphan is stored
as a root with its depth metadata intact. -/
theorem orphan_parent_handling_witness :
    replaceItemComments
        { items := [], comments := [], assets := [], summaries := [] } 7
        [{ externalId := some "a", idAlt := none, author := some "alice",
           userAlt := none, content := some "hello", bodyAlt := none,
           createdAt := none, isDeleted := false, parentExternalId := none,
           parentIdAlt := none, score := none,
           metadata := [("depth", .intVal 0)] },
         { externalId := some "b", idAlt := none, author := some "bob",
           userAlt := none, content := some "hi", bodyAlt := none,
           createdAt := none, isDeleted := false, parentExternalId := some "a",
           parentIdAlt := none, score := none,
           metadata := [("depth", .intVal 1)] },
         { externalId := some "c", idAlt := none, author := some "carol",
           userAlt := none, content := some "yo", bodyAlt := none,
           createdAt := none, isDeleted := false, parentExternalId := some "zz",
           parentIdAlt := none, score := none,
           metadata := [("depth", .intVal 1)] }] 1 ≠ none
    ∧ ∃ dbres, replaceItemComments
        { items := [], comments := [], assets := [], summaries := [] } 7
        [{ externalId := some "a", idAlt := none, author := some "alice",
           userAlt := none, content := some "hello", bodyAlt := none,
           createdAt := none, isDeleted := false, parentExternalId := none,
           parentIdAlt := none, score := none,
           metadata := [("depth", .intVal 0)] },
         { externalId := some "b", idAlt := none, author := some "bob",
           userAlt := none, content := some "hi", bodyAlt := none,
           createdAt := none, isDeleted := false, parentExternalId := some "a",
           parentIdAlt := none, score := none,
           metadata := [("depth", .intVal 1)] },
         { externalId := some "c", idAlt := none, author := some "carol",
           userAlt := none, content := some "yo", bodyAlt := none,
           createdAt := none, isDeleted := false, parentExternalId := some "zz",
           parentIdAlt := none, score := none,
           metadata := [("depth", .intVal 1)] }] 1 = some dbres
      ∧ ∃ row ∈ dbres.comments, row.externalId = "c" ∧ row.parentId = none
          ∧ row.metadata = [("depth", .intVal 1)] := by
  obtain ⟨rows, ids, pending, h1, h2, h3, h4, h5⟩ := orphan_parent_handling
    { items := [], comments := [], assets := [], summaries := [] } 7 1
    [{ externalId := some "a", idAlt := none, author := some "alice",
       userAlt := none, content := some "hello", bodyAlt := none,
       createdAt := none, isDeleted := false, parentExternalId := none,
       parentIdAlt := none, score := none,
       metadata := [("depth", .intVal 0)] },
     { externalId := some "b", idAlt := none, author := some "bob",
       userAlt := none, content := some "hi", bodyAlt := none,
       createdAt := none, isDeleted := false, parentExternalId := some "a",
       parentIdAlt := none, score := none,
       metadata := [("depth", .intVal 1)] },
     { externalId := some "c", idAlt := none, author := some "carol",
       userAlt := none, content := some "yo", bodyAlt := none,
       createdAt := none, isDeleted := false, parentExternalId := some "zz",
       parentIdAlt := none, score := none,
       metadata := [("depth", .intVal 1)] }] (by decide)
  constructor
  · rw [h2]
    exact Option.some_ne_none _
  · refine ⟨_, h2, ?_⟩
    obtain ⟨row, hrow, hre, hpn, hmd⟩ := h3
      { externalId := some "c", idAlt := none, author := some "carol",
        userAlt := none, content := some "yo", bodyAlt := none,
        createdAt := none, isDeleted := false, parentExternalId := some "zz",
        parentIdAlt := none, score := none,
        metadata := [("depth", .intVal 1)] }
      (by decide) (by decide) "zz" (by decide) (by decide)
    exact ⟨row, List.mem_append.mpr (Or.inr hrow), hre, hpn, hmd⟩

end DiscordBot
